import Mathlib

/-!
Verification development for the curivai scoring/synthesis pipeline.

The definitions below are a shallow embedding, in Lean, of the TypeScript
sources under src/: the topic-duplicate detector and tiered analysis engine
(src/engine/topicCluster.ts), the heuristic prefilter
(src/engine/cheapFilter.ts), the structured-output validator
(src/llm/parse.ts), the synthesis composer (src/engine/compose.ts) and the
budget-guarded orchestrator (src/engine/autopilot.ts).

Modelling conventions:
- JavaScript numbers are modelled as rationals; Math.exp is modelled
  as the real exponential (used only by the freshness factor).
- The SQLite store is modelled as lists of records; keyed upserts
  (INSERT ... ON CONFLICT ... DO UPDATE) become update-or-append on those
  lists, and SELECT ... LIMIT 1 becomes List.find?.
- AI transport (the chat client), prompt construction and the external
  zod schemas are abstracted as explicit function parameters: the control
  flow that uses them is embedded faithfully, the text they build is not
  interpreted.
-/

/-- Membership in the JavaScript regex whitespace class \s, which is also the
set trimmed by String.prototype.trim. -/
def isJsWhitespace (c : Char) : Bool :=
  c == ' ' || c == '\t' || c == '\n' || c.toNat == 0x0B || c.toNat == 0x0C ||
  c == '\r' || c.toNat == 0xA0 || c.toNat == 0x1680 ||
  (0x2000 ≤ c.toNat && c.toNat ≤ 0x200A) || c.toNat == 0x2028 ||
  c.toNat == 0x2029 || c.toNat == 0x202F || c.toNat == 0x205F ||
  c.toNat == 0x3000 || c.toNat == 0xFEFF

/-- ASCII lowercasing, modelling String.prototype.toLowerCase on the
alphabet relevant to the topic normalizer (every non-ASCII cased letter is
outside the kept character class both before and after lowercasing, so only
the ASCII mapping is observable downstream). -/
def jsToLower (c : Char) : Char :=
  if 'A' ≤ c ∧ c ≤ 'Z' then Char.ofNat (c.toNat + 32) else c

/-- Character class kept by the topic normalizer regex
[^一-鿿㐀-䶿a-z0-9\s]: CJK ideographs, lowercase ASCII
letters, digits, and whitespace survive; everything else is replaced. -/
def isTopicKept (c : Char) : Bool :=
  (0x4E00 ≤ c.toNat && c.toNat ≤ 0x9FFF) ||
  (0x3400 ≤ c.toNat && c.toNat ≤ 0x4DBF) ||
  ('a' ≤ c && c ≤ 'z') || ('0' ≤ c && c ≤ '9') || isJsWhitespace c

/-- Character that survives normalization with visible content: a letter,
digit or CJK ideograph (kept by the normalizer and not whitespace). -/
def isTopicContentChar (c : Char) : Bool := isTopicKept c && !isJsWhitespace c

/-- Collapse runs of consecutive spaces to a single space. Together with the
canonicalization of every whitespace character to a plain space this models
the global replacement of \s+ by a single space. -/
def squashSpaces : List Char → List Char
  | [] => []
  | [c] => [c]
  | a :: b :: rest =>
    if a == ' ' && b == ' ' then squashSpaces (b :: rest)
    else a :: squashSpaces (b :: rest)

/-- Strip leading and trailing spaces. This models String.prototype.trim at
the point where it is applied: every whitespace character has already been
canonicalized to a plain space by the preceding replacements. -/
def jsTrim (cs : List Char) : List Char :=
  ((cs.dropWhile (· == ' ')).reverse.dropWhile (· == ' ')).reverse

/-- normalizeTopic from src/engine/topicCluster.ts: lowercase, replace every
character outside the kept class by a space, collapse whitespace runs to a
single space, trim. -/
def normalizeTopic (topic : String) : String :=
  let lowered := topic.data.map jsToLower
  let replaced := lowered.map fun c => if isTopicKept c then c else ' '
  let spaced := replaced.map fun c => if isJsWhitespace c then ' ' else c
  String.mk (jsTrim (squashSpaces spaced))

/-- Split a character list on a separator character, keeping empty segments,
modelling String.prototype.split with a single-character separator. -/
def splitOnChar (sep : Char) : List Char → List (List Char)
  | [] => [[]]
  | c :: rest =>
    let r := splitOnChar sep rest
    if c == sep then [] :: r
    else
      match r with
      | [] => [[c]]
      | h :: t => (c :: h) :: t

/-- tokenize from src/engine/topicCluster.ts: split a normalized topic on
spaces and collect the nonempty tokens as a set. -/
def tokenize (normalized : String) : Finset String :=
  (((splitOnChar ' ' normalized.data).filter fun t => 0 < t.length).map
    String.mk).toFinset

/-- jaccardSimilarity from src/engine/topicCluster.ts. Two empty token sets
are defined to have similarity 1. -/
def jaccardSimilarity (a b : Finset String) : ℚ :=
  if a.card = 0 ∧ b.card = 0 then 1
  else ((a ∩ b).card : ℚ) / ((a ∪ b).card : ℚ)

/-- One canonical entry of the seen-topics list in buildTopicPenalties. -/
structure SeenTopic where
  normalized : String
  tokens : Finset String
deriving DecidableEq

/-- One row of the recent-topics query (item_id, topic), newest first. -/
structure TopicRow where
  item_id : String
  topic : String
deriving DecidableEq, Repr

/-- The topic_dedup section of the scoring configuration. -/
structure TopicDedupCfg where
  lookback_days : Nat
  exact_penalty : ℚ
  fuzzy_threshold : ℚ
  fuzzy_penalty : ℚ
deriving DecidableEq, Repr

/-- JavaScript Map.set: overwrite the entry with the given key if present,
otherwise append it. -/
def mapSet (m : List (String × ℚ)) (k : String) (v : ℚ) : List (String × ℚ) :=
  if m.any fun p => p.1 == k then
    m.map fun p => if p.1 == k then (k, v) else p
  else m ++ [(k, v)]

/-- The inner loop of buildTopicPenalties: the maximum similarity of the
current topic against the canonical entries seen so far, with an early
return of 1 on an exact normalized-string match. -/
def maxSimilarityAgainst (normalized : String) (tokens : Finset String) :
    List SeenTopic → ℚ → ℚ
  | [], acc => acc
  | s :: rest, acc =>
    if s.normalized = normalized then 1
    else
      maxSimilarityAgainst normalized tokens rest
        (max acc (jaccardSimilarity tokens s.tokens))

/-- One iteration of the buildTopicPenalties loop: similarity 1 earns the
exact penalty, similarity at or above the fuzzy threshold earns the fuzzy
penalty, and otherwise the topic becomes a new canonical entry. -/
def topicStep (cfg : TopicDedupCfg)
    (st : List SeenTopic × List (String × ℚ)) (row : TopicRow) :
    List SeenTopic × List (String × ℚ) :=
  let normalized := normalizeTopic row.topic
  let tokens := tokenize normalized
  let maxSim := maxSimilarityAgainst normalized tokens st.1 0
  if maxSim = 1 then (st.1, mapSet st.2 row.item_id (-cfg.exact_penalty))
  else if cfg.fuzzy_threshold ≤ maxSim then
    (st.1, mapSet st.2 row.item_id (-cfg.fuzzy_penalty))
  else (st.1 ++ [⟨normalized, tokens⟩], st.2)

/-- buildTopicPenalties from src/engine/topicCluster.ts, over the rows the
SQL query returns (this persona's recent non-null topics, newest first):
fold the per-row step over an initially empty canonical list and penalty
map. -/
def buildTopicPenalties (rows : List TopicRow) (cfg : TopicDedupCfg) :
    List (String × ℚ) :=
  if rows.isEmpty then []
  else (rows.foldl (topicStep cfg) ([], [])).2

/-- JavaScript Math.round on a rational: round half toward positive
infinity. -/
def jsRound (q : ℚ) : ℤ := ⌊q + 1/2⌋

/-- JavaScript Math.round on a real (needed where Math.exp appears). -/
noncomputable def jsRoundR (x : ℝ) : ℤ := ⌊x + 1/2⌋

/-- Whether the needle occurs at the start of the haystack. -/
def charsStartWith : List Char → List Char → Bool
  | _, [] => true
  | [], _ :: _ => false
  | h :: hs, n :: ns => h == n && charsStartWith hs ns

/-- JavaScript String.prototype.includes: the needle occurs as a contiguous
substring of the haystack. -/
def jsIncludes (hay needle : List Char) : Bool :=
  hay.tails.any fun t => charsStartWith t needle

/-- The persona signal and constraint fields consumed by the heuristic
prefilter (src/persona/schema.ts, restricted to what cheapFilter reads). -/
structure PersonaSignals where
  positive_keywords : List String
  negative_keywords : List String
  positive_domains : List String
  negative_domains : List String
  allow_languages : List String
  min_word_count : Nat
deriving DecidableEq

/-- The cheap_weights section of the scoring configuration. -/
structure CheapWeights where
  freshness : ℚ
  keyword_match : ℚ
  source_trust : ℚ
  language_match : ℚ
  length_sanity : ℚ
deriving DecidableEq

/-- The item columns the prefilter reads. Publish time is carried in
milliseconds since the epoch, matching Date.getTime. -/
structure CheapItem where
  id : String
  title : String
  raw_excerpt : Option String
  lang : Option String
  word_count : Option Nat
  published_at_ms : Option ℚ
  site_domain : Option String
  is_duplicate : Bool
deriving DecidableEq

/-- computeFreshness from src/engine/cheapFilter.ts: missing publish time is
neutral 50, a future date is 80, otherwise exponential decay by age in
hours with a floor of 5. -/
noncomputable def computeFreshness (nowMs : ℚ) (publishedAtMs : Option ℚ) : ℚ :=
  match publishedAtMs with
  | none => 50
  | some t =>
    let ageMs := nowMs - t
    let ageHours := ageMs / (1000 * 60 * 60)
    if ageHours < 0 then 80
    else ((max 5 (jsRoundR ((100 : ℝ) * Real.exp (-(1/100) * (ageHours : ℝ)))) : ℤ) : ℚ)

/-- computeKeywordMatch from src/engine/cheapFilter.ts: any negative keyword
hit caps the score at 30 minus 15 per hit; otherwise the positive hit ratio
is scaled into the 20..100 band with a per-hit bonus capped at 3 hits. -/
def computeKeywordMatch (title : String) (excerpt : Option String)
    (p : PersonaSignals) : ℚ :=
  let text := (title.data ++ ' ' :: (excerpt.getD "").data).map jsToLower
  let posHits := p.positive_keywords.countP fun kw =>
    jsIncludes text (kw.data.map jsToLower)
  let negHits := p.negative_keywords.countP fun kw =>
    jsIncludes text (kw.data.map jsToLower)
  if 0 < negHits then max 0 (30 - (negHits : ℚ) * 15)
  else if p.positive_keywords.length = 0 then 50
  else
    let ratio : ℚ := (posHits : ℚ) / (p.positive_keywords.length : ℚ)
    min 100 ((jsRound (20 + ratio * 80 + (min posHits 3 : ℕ) * 10) : ℤ) : ℚ)

/-- computeSourceTrust from src/engine/cheapFilter.ts: deny-listed domains
score 10, allow-listed 90, unknown or unlisted 50; list entries match by
substring containment on the lowercased domain. -/
def computeSourceTrust (domain : Option String) (p : PersonaSignals) : ℚ :=
  match domain with
  | none => 50
  | some dom =>
    let d := dom.data.map jsToLower
    if p.negative_domains.any fun nd => jsIncludes d (nd.data.map jsToLower) then 10
    else if p.positive_domains.any fun pd => jsIncludes d (pd.data.map jsToLower) then 90
    else 50

/-- computeLanguageMatch from src/engine/cheapFilter.ts: unknown language is
neutral 50, otherwise binary membership in the allowed-language list. -/
def computeLanguageMatch (lang : Option String) (p : PersonaSignals) : ℚ :=
  match lang with
  | none => 50
  | some l => if l ∈ p.allow_languages then 100 else 0

/-- computeLengthSanity from src/engine/cheapFilter.ts: linear ramp below
the minimum word count, slight penalty above 10000 words, else 100. -/
def computeLengthSanity (wordCount : Option Nat) (minWordCount : Nat) : ℚ :=
  match wordCount with
  | none => 50
  | some wc =>
    if wc < minWordCount then
      max 0 ((jsRound (((wc : ℚ) / (minWordCount : ℚ)) * 60) : ℤ) : ℚ)
    else if 10000 < wc then 70
    else 100

/-- The per-factor breakdown persisted with each cheap score. -/
structure CheapFactors where
  freshness : ℚ
  keyword_match : ℚ
  source_trust : ℚ
  language_match : ℚ
  length_sanity : ℚ
  duplicate_penalty : ℚ
  topic_duplicate : ℚ
deriving DecidableEq

/-- One scored item as returned by the prefilter. -/
structure CheapScoreResult where
  item_id : String
  cheap_score : ℚ
  factors : CheapFactors
deriving DecidableEq

/-- The per-item body of the runCheapFilter loop: compute the five weighted
factors, add the flat duplicate penalty and the topic-duplicate penalty,
round, and clamp to 0..100. -/
noncomputable def cheapScoreItem (nowMs : ℚ) (item : CheapItem)
    (p : PersonaSignals) (w : CheapWeights) (topicPenalty : ℚ) :
    CheapScoreResult :=
  let freshness := computeFreshness nowMs item.published_at_ms
  let keyword_match := computeKeywordMatch item.title item.raw_excerpt p
  let source_trust := computeSourceTrust item.site_domain p
  let language_match := computeLanguageMatch item.lang p
  let length_sanity := computeLengthSanity item.word_count p.min_word_count
  let duplicate_penalty : ℚ := if item.is_duplicate then -50 else 0
  let topic_duplicate := topicPenalty
  let baseScore :=
    freshness * w.freshness + keyword_match * w.keyword_match +
    source_trust * w.source_trust + language_match * w.language_match +
    length_sanity * w.length_sanity
  let cheap_score :=
    max 0 (min 100
      ((jsRound (baseScore + duplicate_penalty + topic_duplicate) : ℤ) : ℚ))
  ⟨item.id, cheap_score,
    ⟨freshness, keyword_match, source_trust, language_match, length_sanity,
      duplicate_penalty, topic_duplicate⟩⟩

/-- The selection stage at the end of runCheapFilter
(src/engine/cheapFilter.ts): sort all scored results by score descending,
keep those at or above the threshold, and if fewer than min_candidates
survive fall back to a prefix of the sorted list. -/
def selectCandidates (cheapThreshold : ℚ) (minCandidates : Nat)
    (results : List CheapScoreResult) : List CheapScoreResult :=
  let sorted := results.mergeSort fun a b => b.cheap_score ≤ a.cheap_score
  let candidates := sorted.filter fun r => cheapThreshold ≤ r.cheap_score
  if candidates.length < minCandidates then
    sorted.take (max minCandidates candidates.length)
  else candidates

/-- One chat message (role and content). -/
structure ChatMessage where
  role : String
  content : String
deriving DecidableEq

/-- The response of a successful chat call (src/llm/client.ts). -/
structure LlmResponse where
  content : String
  model : String
  token_count : Nat
  cost_estimate : ℚ
deriving DecidableEq

/-- The chat client: maps a message list to either a transport error
message or a response. Transport, timeout and concurrency behaviour live
behind this function. -/
def ChatClient : Type := List ChatMessage → Except String LlmResponse

/-- The LlmError values raised by the validator and the analysis engine,
with the structured details the source attaches. -/
inductive LlmFail where
  | transport (message : String)
  | repairCallFailed (message : String)
  | invalidAfterRepair (original_error repair_error raw : String)
  | itemNotFound (item_id : String)
deriving DecidableEq

/-- JavaScript String.prototype.slice(0, n). -/
def jsSlice (s : String) (n : Nat) : String := String.mk (s.data.take n)

/-- A case-insensitive character match for the fence prefix regex. -/
def charMatchesCI (c pat : Char) : Bool := jsToLower c == jsToLower pat

/-- Whether the pattern occurs case-insensitively at the start. -/
def charsStartWithCI : List Char → List Char → Bool
  | _, [] => true
  | [], _ :: _ => false
  | h :: hs, n :: ns => charMatchesCI h n && charsStartWithCI hs ns

/-- stripCodeFences from src/llm/parse.ts. The first replacement removes a
leading three-backtick fence, an optional case-insensitive json tag and
following whitespace; the second removes a trailing fence together with
surrounding whitespace (anchored at the end of the string, so it fires on
the unique fence followed only by whitespace); the final trim removes
remaining outer whitespace. -/
def stripCodeFences (raw : String) : String :=
  let fence : List Char := ['\x60', '\x60', '\x60']
  let cs := raw.data
  let afterPrefix :=
    if charsStartWith cs fence then
      let rest := cs.drop 3
      let rest2 :=
        if charsStartWithCI rest ['j', 's', 'o', 'n'] then rest.drop 4 else rest
      rest2.dropWhile isJsWhitespace
    else cs
  let revTrimmed := afterPrefix.reverse.dropWhile isJsWhitespace
  let afterSuffix :=
    if charsStartWith revTrimmed fence.reverse then
      ((revTrimmed.drop 3).dropWhile isJsWhitespace).reverse
    else revTrimmed.reverse
  String.mk
    ((afterSuffix.dropWhile isJsWhitespace).reverse.dropWhile
      isJsWhitespace).reverse

/-- A schema validator: JSON.parse followed by zod safeParse, abstracted as
a function from the raw text to either an error message or a typed value
(both JSON.parse and zod are external libraries). -/
def SchemaFn (T : Type) : Type := String → Except String T

/-- buildRepairPrompt from src/llm/prompts.ts. -/
def buildRepairPrompt (zodError rawOutput : String) : String :=
  "Your previous output was invalid JSON. The error: " ++ zodError ++
    ". Fix and output valid JSON only:\n" ++ rawOutput

/-- parseWithRetry from src/llm/parse.ts: strip fences, attempt a strict
parse, and on failure issue exactly one repair chat call and re-validate;
a second failure is terminal and carries both error messages. The second
component counts the chat calls issued inside the function. -/
def parseWithRetry {T : Type} (schema : SchemaFn T) (rawOutput : String)
    (client : ChatClient) (systemMessage : String) :
    Except LlmFail T × Nat :=
  let cleaned := stripCodeFences rawOutput
  match schema cleaned with
  | .ok v => (.ok v, 0)
  | .error firstError =>
    let repairPrompt := buildRepairPrompt firstError cleaned
    match client [⟨"system", systemMessage⟩, ⟨"user", repairPrompt⟩] with
    | .error err => (.error (.repairCallFailed ("LLM repair call failed: " ++ err)), 1)
    | .ok repairResponse =>
      let repairedCleaned := stripCodeFences repairResponse.content
      match schema repairedCleaned with
      | .ok v => (.ok v, 1)
      | .error repairError =>
        (.error (.invalidAfterRepair firstError repairError
          (jsSlice repairedCleaned 500)), 1)

/-- The pack_level column: the analysis tier. -/
inductive Tier where
  | lite
  | full
deriving DecidableEq

/-- The llm_status column of score_packs. -/
inductive LlmStatus where
  | pending
  | done
  | failed
deriving DecidableEq

/-- One row of the score_packs table (the AnalysisPack record). -/
structure ScorePackRec where
  rec_id : String
  item_id : String
  persona_name : String
  pack_level : Tier
  topic : Option String
  cn_title : Option String
  cn_summary_short : Option String
  dimension_scores_json : Option String
  score_overall : Option ℚ
  action : Option String
  reasons_json : Option String
  angle_suggestion : Option String
  cn_summary_long : Option String
  key_points_json : Option String
  quotes_json : Option String
  model : Option String
  prompt_version : Option String
  llm_status : LlmStatus
  token_count : Option Nat
  created_at : String
deriving DecidableEq

/-- One row of the items table (the columns the engine reads). -/
structure ItemRec where
  id : String
  title : String
  url : String
  lang : Option String
  word_count : Option Nat
  published_at : Option String
  content_text : Option String
  site_domain : Option String
deriving DecidableEq

/-- One row of the drafts table, with selected_item_ids_json parsed. -/
structure DraftRec where
  id : String
  persona_name : String
  draft_type : String
  title : Option String
  selected_item_ids : List String
  merge_strategy : Option String
  user_commentary : Option String
  compose_json : Option String
  content_md : Option String
  created_at : String
  updated_at : String
deriving DecidableEq

/-- The relational store as the engine sees it. -/
structure Db where
  items : List ItemRec
  score_packs : List ScorePackRec
  drafts : List DraftRec
deriving DecidableEq

/-- SELECT ... FROM score_packs WHERE item_id = ? AND persona_name = ?
(first row). -/
def findPackAny (db : Db) (itemId personaName : String) :
    Option ScorePackRec :=
  db.score_packs.find? fun p =>
    p.item_id == itemId && p.persona_name == personaName

/-- SELECT ... FROM score_packs WHERE item_id = ? AND persona_name = ? AND
llm_status = 'done' (first row): the cache and compose lookups. -/
def findDonePack (db : Db) (itemId personaName : String) :
    Option ScorePackRec :=
  db.score_packs.find? fun p =>
    p.item_id == itemId && p.persona_name == personaName &&
      p.llm_status == LlmStatus.done

/-- SELECT ... FROM items WHERE id = ?. -/
def findItem (db : Db) (itemId : String) : Option ItemRec :=
  db.items.find? fun i => i.id == itemId

/-- INSERT ... ON CONFLICT(item_id, persona_name) DO UPDATE: if a row with
the key exists it is updated in place (every row with the key, which under
the table's uniqueness constraint is at most one), otherwise the fresh row
is appended. -/
def upsertPacks (packs : List ScorePackRec) (itemId personaName : String)
    (fresh : ScorePackRec) (upd : ScorePackRec → ScorePackRec) :
    List ScorePackRec :=
  if packs.any fun p => p.item_id == itemId && p.persona_name == personaName
  then
    packs.map fun p =>
      if p.item_id == itemId && p.persona_name == personaName then upd p
      else p
  else packs ++ [fresh]

/-- The statistics runScorePackLite accumulates. -/
structure ScorePackStats where
  attempted : Nat
  succeeded : Nat
  failed : Nat
  skipped_cached : Nat
  total_tokens : Nat
  total_cost : ℚ
deriving DecidableEq

/-- The zero statistics record runScorePackLite starts from. -/
def emptyStats : ScorePackStats := ⟨0, 0, 0, 0, 0, 0⟩

/-- The validated ScorePack Lite output fields (the dynamic zod schema's
result; dimension scores and reasons are carried as their serialized JSON
forms since the engine only ever stringifies them). -/
structure LiteOutput where
  topic : String
  cn_title : String
  cn_summary_short : String
  dimension_scores_json : String
  score_overall : ℚ
  action : String
  reasons_json : String
  angle_suggestion : String
deriving DecidableEq

/-- The validated ScorePack Full output: the lite fields plus the long
summary, key points and quotes extension. -/
structure FullOutput where
  lite : LiteOutput
  cn_summary_long : String
  key_points_json : String
  quotes_json : String
deriving DecidableEq

/-- The ambient effects of a ScorePack run that the source obtains from
module state or libraries: the chat client, the persona-derived zod
schemas, the prompt builders (buildScorePackLiteMessages and
buildScorePackFullMessages, keyed by the item id whose loaded fields they
embed), generateId and nowISO. -/
structure ScorePackEnv where
  chat : ChatClient
  liteSchema : SchemaFn LiteOutput
  fullSchema : SchemaFn FullOutput
  liteMessages : String → List ChatMessage
  fullMessages : String → List ChatMessage
  genId : String → String
  now : String

/-- The content of messages[0] passed to parseWithRetry as the repair
system message. -/
def headContent (messages : List ChatMessage) : String :=
  (messages.headD ⟨"", ""⟩).content

/-- The fresh row inserted by the markFailed statement of runScorePackLite
when no row with the key exists. -/
def markFailedFresh (env : ScorePackEnv) (itemId personaName : String) :
    ScorePackRec :=
  { rec_id := env.genId itemId
    item_id := itemId
    persona_name := personaName
    pack_level := Tier.lite
    topic := none
    cn_title := some ""
    cn_summary_short := some ""
    dimension_scores_json := some "\x7b\x7d"
    score_overall := some 0
    action := some "跳过"
    reasons_json := some "[]"
    angle_suggestion := none
    cn_summary_long := none
    key_points_json := none
    quotes_json := none
    model := none
    prompt_version := none
    llm_status := LlmStatus.failed
    token_count := none
    created_at := env.now }

/-- The ON CONFLICT update of the markFailed statement: set llm_status to
failed and leave everything else, including pack_level, unchanged. -/
def markFailedUpd (p : ScorePackRec) : ScorePackRec :=
  { p with llm_status := LlmStatus.failed }

/-- The markFailed upsert of runScorePackLite. -/
def markFailedPack (db : Db) (env : ScorePackEnv) (itemId personaName : String) :
    Db :=
  { db with
    score_packs :=
      upsertPacks db.score_packs itemId personaName
        (markFailedFresh env itemId personaName) markFailedUpd }

/-- The fresh row inserted by the successful-path lite upsert. -/
def liteFresh (env : ScorePackEnv) (itemId personaName : String)
    (parsed : LiteOutput) (resp : LlmResponse) : ScorePackRec :=
  { rec_id := env.genId itemId
    item_id := itemId
    persona_name := personaName
    pack_level := Tier.lite
    topic := some parsed.topic
    cn_title := some parsed.cn_title
    cn_summary_short := some parsed.cn_summary_short
    dimension_scores_json := some parsed.dimension_scores_json
    score_overall := some parsed.score_overall
    action := some parsed.action
    reasons_json := some parsed.reasons_json
    angle_suggestion := some parsed.angle_suggestion
    cn_summary_long := none
    key_points_json := none
    quotes_json := none
    model := some resp.model
    prompt_version := some "scorepack_lite_v1"
    llm_status := LlmStatus.done
    token_count := some resp.token_count
    created_at := env.now }

/-- The ON CONFLICT update of the successful-path lite upsert: overwrite
the lite fields, force pack_level back to lite and llm_status to done,
leaving the full-only columns and created_at as they were. -/
def liteUpd (parsed : LiteOutput) (resp : LlmResponse)
    (p : ScorePackRec) : ScorePackRec :=
  { p with
    pack_level := Tier.lite
    topic := some parsed.topic
    cn_title := some parsed.cn_title
    cn_summary_short := some parsed.cn_summary_short
    dimension_scores_json := some parsed.dimension_scores_json
    score_overall := some parsed.score_overall
    action := some parsed.action
    reasons_json := some parsed.reasons_json
    angle_suggestion := some parsed.angle_suggestion
    model := some resp.model
    prompt_version := some "scorepack_lite_v1"
    llm_status := LlmStatus.done
    token_count := some resp.token_count }

/-- The successful-path upsert of runScorePackLite. -/
def upsertLitePack (db : Db) (env : ScorePackEnv) (itemId personaName : String)
    (parsed : LiteOutput) (resp : LlmResponse) : Db :=
  { db with
    score_packs :=
      upsertPacks db.score_packs itemId personaName
        (liteFresh env itemId personaName parsed resp) (liteUpd parsed resp) }

/-- One iteration of the runScorePackLite loop over a candidate: cache
check (skipped under force), item load, chat call, validation via
parseWithRetry, then either the done upsert or the failed marking; a
failure never escapes the iteration. -/
def liteStep (env : ScorePackEnv) (personaName : String) (force : Bool)
    (acc : ScorePackStats × Db) (candidate : CheapScoreResult) :
    ScorePackStats × Db :=
  let (stats, db) := acc
  if !force && (findDonePack db candidate.item_id personaName).isSome then
    ({ stats with skipped_cached := stats.skipped_cached + 1 }, db)
  else
    match findItem db candidate.item_id with
    | none => (stats, db)
    | some item =>
      let stats := { stats with attempted := stats.attempted + 1 }
      let messages := env.liteMessages item.id
      match env.chat messages with
      | .error _ =>
        ({ stats with failed := stats.failed + 1 },
          markFailedPack db env item.id personaName)
      | .ok llmResponse =>
        let stats :=
          { stats with
            total_tokens := stats.total_tokens + llmResponse.token_count
            total_cost := stats.total_cost + llmResponse.cost_estimate }
        match
          (parseWithRetry env.liteSchema llmResponse.content env.chat
            (headContent messages)).1
        with
        | .ok parsed =>
          ({ stats with succeeded := stats.succeeded + 1 },
            upsertLitePack db env item.id personaName parsed llmResponse)
        | .error _ =>
          ({ stats with failed := stats.failed + 1 },
            markFailedPack db env item.id personaName)

/-- runScorePackLite from src/engine/scorePack.ts: process every candidate
in order, accumulating statistics; the function always returns normally. -/
def runScorePackLite (env : ScorePackEnv) (db : Db)
    (candidates : List CheapScoreResult) (personaName : String)
    (force : Bool) : ScorePackStats × Db :=
  candidates.foldl (liteStep env personaName force) (emptyStats, db)

/-- The fresh row inserted by the upgradeToFull upsert. -/
def fullFresh (env : ScorePackEnv) (itemId personaName : String)
    (parsed : FullOutput) (resp : LlmResponse) : ScorePackRec :=
  { rec_id := env.genId itemId
    item_id := itemId
    persona_name := personaName
    pack_level := Tier.full
    topic := some parsed.lite.topic
    cn_title := some parsed.lite.cn_title
    cn_summary_short := some parsed.lite.cn_summary_short
    dimension_scores_json := some parsed.lite.dimension_scores_json
    score_overall := some parsed.lite.score_overall
    action := some parsed.lite.action
    reasons_json := some parsed.lite.reasons_json
    angle_suggestion := some parsed.lite.angle_suggestion
    cn_summary_long := some parsed.cn_summary_long
    key_points_json := some parsed.key_points_json
    quotes_json := some parsed.quotes_json
    model := some resp.model
    prompt_version := some "scorepack_full_v1"
    llm_status := LlmStatus.done
    token_count := some resp.token_count
    created_at := env.now }

/-- The ON CONFLICT update of the upgradeToFull upsert: overwrite with the
richer result, setting pack_level to full. -/
def fullUpd (parsed : FullOutput) (resp : LlmResponse)
    (p : ScorePackRec) : ScorePackRec :=
  { p with
    pack_level := Tier.full
    topic := some parsed.lite.topic
    cn_title := some parsed.lite.cn_title
    cn_summary_short := some parsed.lite.cn_summary_short
    dimension_scores_json := some parsed.lite.dimension_scores_json
    score_overall := some parsed.lite.score_overall
    action := some parsed.lite.action
    reasons_json := some parsed.lite.reasons_json
    angle_suggestion := some parsed.lite.angle_suggestion
    cn_summary_long := some parsed.cn_summary_long
    key_points_json := some parsed.key_points_json
    quotes_json := some parsed.quotes_json
    model := some resp.model
    prompt_version := some "scorepack_full_v1"
    llm_status := LlmStatus.done
    token_count := some resp.token_count }

/-- The upsert of upgradeToFull. -/
def upsertFullPack (db : Db) (env : ScorePackEnv) (itemId personaName : String)
    (parsed : FullOutput) (resp : LlmResponse) : Db :=
  { db with
    score_packs :=
      upsertPacks db.score_packs itemId personaName
        (fullFresh env itemId personaName parsed resp)
        (fullUpd parsed resp) }

/-- The body of upgradeToFull past the already-full early return: load the
item (raising when it is missing), issue the full chat call, validate with
one bounded repair, and upsert the full result. -/
def upgradeToFullRun (env : ScorePackEnv) (db : Db)
    (itemId personaName : String) : Except LlmFail Db × Nat :=
  match findItem db itemId with
  | none => (.error (.itemNotFound itemId), 0)
  | some item =>
    let messages := env.fullMessages item.id
    match env.chat messages with
    | .error e => (.error (.transport e), 1)
    | .ok llmResponse =>
      match
        parseWithRetry env.fullSchema llmResponse.content env.chat
          (headContent messages)
      with
      | (.ok parsed, repairCalls) =>
        (.ok (upsertFullPack db env item.id personaName parsed llmResponse),
          1 + repairCalls)
      | (.error e, repairCalls) => (.error e, 1 + repairCalls)

/-- upgradeToFull from src/engine/scorePack.ts: a no-op when the stored
pack is already full (any status); otherwise run the escalation body.
Returns the raised error or the new store, together with the number of
chat calls issued. -/
def upgradeToFull (env : ScorePackEnv) (db : Db)
    (itemId personaName : String) : Except LlmFail Db × Nat :=
  match findPackAny db itemId personaName with
  | some existing =>
    if existing.pack_level == Tier.full then (.ok db, 0)
    else upgradeToFullRun env db itemId personaName
  | none => upgradeToFullRun env db itemId personaName

/-- The ComposeError values runCompose raises, with the structured details
(the not_full detail carries every offending id). -/
inductive ComposeFail where
  | draftNotFound (draft_id : String)
  | noSelectedItems (draft_id : String)
  | notFullyScored (not_full : List String)
  | noValidItems
  | llm (e : LlmFail)
deriving DecidableEq

/-- One entry of the selected_items array handed to the compose prompt
builder; JSON-encoded columns are carried raw (their decoding is the
external JSON.parse). -/
structure ComposeSelectedItem where
  index : Nat
  cn_title : String
  score_overall : ℚ
  source_domain : String
  url : String
  cn_summary_short : String
  cn_summary_long : Option String
  key_points_json : String
  quotes_json : String
  angle_suggestion : Option String
deriving DecidableEq

/-- The validated compose output (the fixed ComposeOutputSchema), carried
abstractly: the composer only hands it to rendering and serialization. -/
structure ComposeOutput where
  title_candidates : List String
  content_md : String
  tags : List String
  sources_json : String
  platform_specific_json : String
deriving DecidableEq

/-- The statistics runCompose returns. -/
structure ComposeStats where
  draft_id : String
  items_composed : Nat
  token_count : Nat
  cost_estimate : ℚ
  prompt_version : String
deriving DecidableEq

/-- The ambient effects of runCompose: the chat client, the fixed compose
schema, the prompt builder, the export renderer (src/studio/export.ts),
JSON.stringify of the compose output, URL hostname fallback and nowISO. -/
structure ComposeEnv where
  chat : ChatClient
  composeSchema : SchemaFn ComposeOutput
  composeMessages : DraftRec → List ComposeSelectedItem → List ChatMessage
  renderExport : ComposeOutput → DraftRec → String
  stringifyCompose : ComposeOutput → String
  hostname : String → String
  now : String

/-- SELECT * FROM drafts WHERE id = ? with JSON fields parsed
(getDraft from src/studio/drafts.ts). -/
def getDraft (db : Db) (draftId : String) : Option DraftRec :=
  db.drafts.find? fun d => d.id == draftId

/-- updateDraft from src/studio/drafts.ts as runCompose invokes it: set
compose_json, content_md and updated_at on the draft row. -/
def updateDraftCompose (db : Db) (draftId composeJson contentMd now : String) :
    Db :=
  { db with
    drafts :=
      db.drafts.map fun d =>
        if d.id == draftId then
          { d with
            compose_json := some composeJson
            content_md := some contentMd
            updated_at := now }
        else d }

/-- The loop of runCompose over the draft selection, with the 0-based loop
counter: a selected id whose done pack is missing or not full joins
not_full; one whose item row is missing is silently skipped; the rest
become prompt entries. Returns (selectedItems, notFullItems), both in
selection order. -/
def composeCollect (env : ComposeEnv) (db : Db) (personaName : String) :
    Nat → List String → List ComposeSelectedItem × List String
  | _, [] => ([], [])
  | i, itemId :: rest =>
    match findDonePack db itemId personaName with
    | none =>
      let (sel, nf) := composeCollect env db personaName (i + 1) rest
      (sel, itemId :: nf)
    | some sp =>
      if sp.pack_level == Tier.full then
        match findItem db itemId with
        | none => composeCollect env db personaName (i + 1) rest
        | some item =>
          let (sel, nf) := composeCollect env db personaName (i + 1) rest
          ({ index := i + 1
             cn_title := (sp.cn_title).getD item.title
             score_overall := (sp.score_overall).getD 0
             source_domain := (item.site_domain).getD (env.hostname item.url)
             url := item.url
             cn_summary_short := (sp.cn_summary_short).getD ""
             cn_summary_long := sp.cn_summary_long
             key_points_json := (sp.key_points_json).getD "[]"
             quotes_json := (sp.quotes_json).getD "[]"
             angle_suggestion := sp.angle_suggestion } :: sel, nf)
      else
        let (sel, nf) := composeCollect env db personaName (i + 1) rest
        (sel, itemId :: nf)

/-- runCompose from src/engine/compose.ts: load the draft, check the
selection nonempty, collect the full-tier packs, fail closed when any
selected id lacks a done full pack (naming all of them), fail when nothing
valid remains, then one compose chat call, validation with one bounded
repair, export rendering and the draft update. Returns the result, the
number of chat calls issued and the resulting store. -/
def runCompose (env : ComposeEnv) (db : Db) (draftId personaName : String) :
    Except ComposeFail ComposeStats × Nat × Db :=
  match getDraft db draftId with
  | none => (.error (.draftNotFound draftId), 0, db)
  | some draft =>
    if draft.selected_item_ids.isEmpty then
      (.error (.noSelectedItems draftId), 0, db)
    else
      let (selectedItems, notFullItems) :=
        composeCollect env db personaName 0 draft.selected_item_ids
      if notFullItems.isEmpty = false then
        (.error (.notFullyScored notFullItems), 0, db)
      else if selectedItems.isEmpty then (.error .noValidItems, 0, db)
      else
        let promptVersionKey :=
          if draft.draft_type == "wechat" then "compose_wechat_v1"
          else if draft.draft_type == "xhs" then "compose_xhs_v1"
          else "compose_douyin_v1"
        let messages := env.composeMessages draft selectedItems
        match env.chat messages with
        | .error e => (.error (.llm (.transport e)), 1, db)
        | .ok llmResponse =>
          match
            parseWithRetry env.composeSchema llmResponse.content env.chat
              (headContent messages)
          with
          | (.error e, repairCalls) => (.error (.llm e), 1 + repairCalls, db)
          | (.ok composeOutput, repairCalls) =>
            let contentMd := env.renderExport composeOutput draft
            let db2 :=
              updateDraftCompose db draftId
                (env.stringifyCompose composeOutput) contentMd env.now
            (.ok
              { draft_id := draftId
                items_composed := selectedItems.length
                token_count := llmResponse.token_count
                cost_estimate := llmResponse.cost_estimate
                prompt_version := promptVersionKey },
              1 + repairCalls, db2)

/-- The autopilot options the budget plan reads (missing values fall back
to configured or hard-coded defaults, as in runAutopilot). -/
structure AutopilotOpts where
  persona : String
  budget : Option Nat
  autoPickCount : Option Nat
deriving DecidableEq

/-- The budget section of the configuration. -/
structure BudgetCfg where
  max_llm_calls_per_run : Nat
  max_cost_usd_per_run : ℚ
  cost_per_call_estimate : ℚ
deriving DecidableEq

/-- Side effects observable downstream of the budget guard: AI calls issued
and database writes performed. -/
structure SideEffects where
  aiCalls : Nat
  dbWrites : Nat
deriving DecidableEq

/-- The errors the orchestrator raises up to and including the Go/No-Go
gate. Pipeline errors raised later are wrapped by the last constructor. -/
inductive AutopilotFail where
  | personaNotFound (name : String)
  | budgetCallsExceeded (total limit : Nat)
  | budgetCostExceeded (cost limit : ℚ)
  | cancelled
  | pipeline (e : ComposeFail)
deriving DecidableEq

/-- The pre-flight plan runAutopilot computes before any spend. -/
structure AutopilotPlan where
  liteScoringCount : Nat
  fullUpgradeCount : Nat
  composeCalls : Nat
  totalLlmCalls : Nat
  estimatedCost : ℚ
deriving DecidableEq

/-- buildAutopilotPlan: the plan arithmetic of runAutopilot
(src/engine/autopilot.ts): lite calls = requested budget, full calls =
auto-pick count, one compose call, cost = total times the per-call
estimate. -/
def buildAutopilotPlan (budget autoPickCount : Nat) (cfg : BudgetCfg) :
    AutopilotPlan :=
  let planLiteCount := budget
  let planFullCount := autoPickCount
  let planComposeCalls := 1
  let totalLlmCalls := planLiteCount + planFullCount + planComposeCalls
  ⟨planLiteCount, planFullCount, planComposeCalls, totalLlmCalls,
    (totalLlmCalls : ℚ) * cfg.cost_per_call_estimate⟩

/-- The prefix of runAutopilot from src/engine/autopilot.ts up to the first
side effect: persona lookup (a read), plan computation, the two ceiling
checks, and the Go/No-Go confirmation gate. Everything after the gate
(ingest, prefilter, lite scoring, auto-pick, full escalation, compose,
lint) is abstracted as the pipeline continuation, which carries its own
side-effect count; the guard paths return with zero effects. -/
def runAutopilot {α : Type} (personaExists : Bool) (opts : AutopilotOpts)
    (defaultBudget : Nat) (cfg : BudgetCfg) (onPlan : Option Bool)
    (pipeline : Except AutopilotFail α × SideEffects) :
    Except AutopilotFail α × SideEffects :=
  if !personaExists then (.error (.personaNotFound opts.persona), ⟨0, 0⟩)
  else
    let budget := opts.budget.getD defaultBudget
    let autoPickCount := opts.autoPickCount.getD 5
    let plan := buildAutopilotPlan budget autoPickCount cfg
    if cfg.max_llm_calls_per_run < plan.totalLlmCalls then
      (.error
        (.budgetCallsExceeded plan.totalLlmCalls cfg.max_llm_calls_per_run),
        ⟨0, 0⟩)
    else if cfg.max_cost_usd_per_run < plan.estimatedCost then
      (.error (.budgetCostExceeded plan.estimatedCost cfg.max_cost_usd_per_run),
        ⟨0, 0⟩)
    else
      match onPlan with
      | some false => (.error .cancelled, ⟨0, 0⟩)
      | _ => pipeline


/-- Whether a selected item id lacks a done full-tier pack: the membership
test of the not-full list runCompose raises on. -/
def lacksFullDonePack (db : Db) (itemId personaName : String) : Bool :=
  match findDonePack db itemId personaName with
  | none => true
  | some sp => !(sp.pack_level == Tier.full)

/-- Whether the chat-and-validate phase of a lite iteration fails for an
item: the transport call errors, or validation (with its one bounded
repair) still fails. -/
def liteCallFails (env : ScorePackEnv) (itemId : String) : Bool :=
  match env.chat (env.liteMessages itemId) with
  | .error _ => true
  | .ok resp =>
    match
      (parseWithRetry env.liteSchema resp.content env.chat
        (headContent (env.liteMessages itemId))).1
    with
    | .ok _ => false
    | .error _ => true

/-- Whether a candidate of a lite batch ends in the failed marking: it is
not served from cache, its item row exists, and its chat-and-validate
phase fails. -/
def liteFailCond (env : ScorePackEnv) (db : Db) (personaName : String)
    (force : Bool) (c : CheapScoreResult) : Bool :=
  (force || !(findDonePack db c.item_id personaName).isSome) &&
    (findItem db c.item_id).isSome && liteCallFails env c.item_id

/-- A concrete validated lite output used by the concrete runs below. -/
def fixtureLiteOutput : LiteOutput :=
  ⟨"ai funding", "标题", "摘要", "\x7b\x7d", 80, "可写", "[]", "角度"⟩

/-- A concrete chat response used by the concrete runs below. -/
def fixtureResponse : LlmResponse := ⟨"raw-output", "model-x", 10, 0⟩

/-- An environment whose chat and lite validation always succeed. -/
def fixtureEnvOk : ScorePackEnv :=
  ⟨fun _ => .ok fixtureResponse, fun _ => .ok fixtureLiteOutput,
    fun _ => .error "unused", fun i => [⟨"system", "sys-" ++ i⟩],
    fun i => [⟨"system", "sysf-" ++ i⟩], fun i => "gen-" ++ i,
    "2026-01-01T00:00:00Z"⟩

/-- An environment whose chat calls always fail with a timeout. -/
def fixtureEnvFail : ScorePackEnv :=
  ⟨fun _ => .error "timeout", fun _ => .error "invalid",
    fun _ => .error "invalid", fun i => [⟨"system", "sys-" ++ i⟩],
    fun i => [⟨"system", "sysf-" ++ i⟩], fun i => "gen-" ++ i,
    "2026-01-01T00:00:00Z"⟩

/-- A concrete full-tier done pack for item i1 and persona p. -/
def fixtureFullPack : ScorePackRec :=
  ⟨"r1", "i1", "p", Tier.full, some "ai funding", some "标题", some "摘要",
    some "\x7b\x7d", some 77, some "可写", some "[]", some "角度",
    some "长摘要", some "[]", some "[]", some "model-x",
    some "scorepack_full_v1", LlmStatus.done, some 9, "2025-12-31"⟩

/-- A concrete item row with id i1. -/
def fixtureItem : ItemRec :=
  ⟨"i1", "Title One", "https://example.com/a", some "en", some 500,
    some "2026-01-01", some "text", some "example.com"⟩

/-- A concrete item row with id i2. -/
def fixtureItemTwo : ItemRec :=
  ⟨"i2", "Title Two", "https://example.com/b", some "en", some 400,
    some "2026-01-01", some "text", some "example.com"⟩

/-- A store holding item i1 with a full done pack for persona p. -/
def fixtureDb : Db := ⟨[fixtureItem], [fixtureFullPack], []⟩

/-- A store holding item i2 and no packs. -/
def fixtureDbTwo : Db := ⟨[fixtureItemTwo], [], []⟩

/-- A concrete prefilter candidate for item i1. -/
def fixtureCand : CheapScoreResult := ⟨"i1", 80, ⟨99, 93, 90, 100, 100, 0, 0⟩⟩

/-- A concrete prefilter candidate for item i2. -/
def fixtureCandTwo : CheapScoreResult := ⟨"i2", 70, ⟨80, 60, 50, 100, 100, 0, 0⟩⟩

/-- A concrete compose environment. -/
def fixtureComposeEnv : ComposeEnv :=
  ⟨fun _ => .error "unreached", fun _ => .error "unreached", fun _ _ => [],
    fun _ _ => "", fun _ => "", fun _ => "example.com", "2026-01-01"⟩

/-- A concrete draft selecting i1 (fully scored) and i2 (not scored). -/
def fixtureDraft : DraftRec :=
  ⟨"d1", "p", "wechat", some "Draft", ["i1", "i2"], some "roundup", none,
    none, none, "2026-01-01", "2026-01-01"⟩

/-- A store for the compose run: both items, a full done pack only for i1,
and the draft. -/
def fixtureComposeDb : Db :=
  ⟨[fixtureItem, fixtureItemTwo], [fixtureFullPack], [fixtureDraft]⟩

/-- The Scenario A item: published one hour before the reference time (in
milliseconds), 500 words, allowed language, trusted domain, no duplicate
flag. -/
def scenarioAItem : CheapItem :=
  ⟨"item_a", "ai and rust news", none, some "en", some 500, some 0,
    some "news.example.com", false⟩

/-- The Scenario A persona signals: three positive keywords of which the
item matches two, a negative keyword the item avoids, an allow-listed
domain, the matching language, and a 300-word minimum. -/
def scenarioAPersona : PersonaSignals :=
  ⟨["ai", "rust", "wasm"], ["crypto"], ["example.com"], [], ["en"], 300⟩

/-- The Scenario A weights. -/
def scenarioAWeights : CheapWeights := ⟨1/4, 3/10, 1/5, 1/10, 1/10⟩

lemma jaccardSimilarity_self (a : Finset String) : jaccardSimilarity a a = 1 := by
  unfold jaccardSimilarity
  rcases Nat.eq_zero_or_pos a.card with h | h
  · simp [h]
  · rw [if_neg (by omega)]
    rw [Finset.inter_self, Finset.union_self, div_self]
    exact_mod_cast Nat.pos_iff_ne_zero.mp h

lemma maxSimilarityAgainst_eq_one (n : String) (tk : Finset String) :
    ∀ (seen : List SeenTopic) (acc : ℚ),
      (∃ s ∈ seen, s.normalized = n) →
      maxSimilarityAgainst n tk seen acc = 1
  | [], _, h => by simp at h
  | s :: rest, acc, h => by
    unfold maxSimilarityAgainst
    by_cases hs : s.normalized = n
    · rw [if_pos hs]
    · rw [if_neg hs]
      rcases h with ⟨w, hw, hwn⟩
      rcases List.mem_cons.mp hw with rfl | hmem
      · exact absurd hwn hs
      · exact maxSimilarityAgainst_eq_one n tk rest _ ⟨w, hmem, hwn⟩

lemma maxSimilarityAgainst_lt (n : String) (tk : Finset String) (th : ℚ) :
    ∀ (seen : List SeenTopic) (acc : ℚ),
      (∀ s ∈ seen, s.normalized ≠ n ∧ jaccardSimilarity tk s.tokens < th) →
      acc < th →
      maxSimilarityAgainst n tk seen acc < th
  | [], acc, _, hacc => hacc
  | s :: rest, acc, h, hacc => by
    unfold maxSimilarityAgainst
    have hs := h s (List.mem_cons_self s rest)
    rw [if_neg hs.1]
    exact maxSimilarityAgainst_lt n tk th rest _
      (fun w hw => h w (List.mem_cons_of_mem s hw))
      (max_lt hacc hs.2)

/-- Claim C5. In the topic-penalty map built over a persona's recent topics
newest-first: a topic whose normalized form is string-equal to an earlier
canonical topic receives the exact (strong) penalty; a topic whose
token-set Jaccard similarity to every canonical topic is below the fuzzy
threshold receives no penalty and becomes a new canonical entry; empty
history yields an empty map; and the map is exactly the fold of this step
over the history rows. -/
theorem claim_C5 (cfg : TopicDedupCfg) (seen : List SeenTopic)
    (pens : List (String × ℚ)) (row : TopicRow) :
    ((∃ s ∈ seen, s.normalized = normalizeTopic row.topic) →
      topicStep cfg (seen, pens) row =
        (seen, mapSet pens row.item_id (-cfg.exact_penalty))) ∧
    (0 < cfg.fuzzy_threshold → cfg.fuzzy_threshold ≤ 1 →
      (∀ s ∈ seen, s.tokens = tokenize s.normalized) →
      (∀ s ∈ seen,
        jaccardSimilarity (tokenize (normalizeTopic row.topic)) s.tokens <
          cfg.fuzzy_threshold) →
      topicStep cfg (seen, pens) row =
        (seen ++
          [⟨normalizeTopic row.topic, tokenize (normalizeTopic row.topic)⟩],
          pens)) ∧
    (buildTopicPenalties [] cfg = []) ∧
    (∀ rows : List TopicRow,
      buildTopicPenalties rows cfg = (rows.foldl (topicStep cfg) ([], [])).2) := by
  refine ⟨?_, ?_, rfl, ?_⟩
  · intro hex
    unfold topicStep
    dsimp only
    rw [maxSimilarityAgainst_eq_one _ _ _ _ hex]
    simp
  · intro hth0 hth1 hwf hlt
    have hne : ∀ s ∈ seen, s.normalized ≠ normalizeTopic row.topic := by
      intro s hs heq
      have htk := hwf s hs
      have := hlt s hs
      rw [htk, heq, jaccardSimilarity_self] at this
      linarith
    have hmax :
        maxSimilarityAgainst (normalizeTopic row.topic)
          (tokenize (normalizeTopic row.topic)) seen 0 < cfg.fuzzy_threshold :=
      maxSimilarityAgainst_lt _ _ _ seen 0
        (fun s hs => ⟨hne s hs, hlt s hs⟩) hth0
    unfold topicStep
    dsimp only
    rw [if_neg (by intro h1; rw [h1] at hmax; linarith),
      if_neg (by exact not_le.mpr hmax)]
  · intro rows
    cases rows with
    | nil => rfl
    | cons r rs => rfl

/-- Witness for claim C5: a concrete exact duplicate is penalized by the
exact penalty, a concrete zero-overlap topic becomes a new canonical entry
with no penalty, and the empty history yields the empty map. -/
theorem claim_C5_witness :
    topicStep ⟨7, 30, 3/5, 15⟩
        ([⟨"openai funding", tokenize "openai funding"⟩], [])
        ⟨"item2", "OpenAI funding!!"⟩ =
      ([⟨"openai funding", tokenize "openai funding"⟩],
        [("item2", -30)]) ∧
    topicStep ⟨7, 30, 3/5, 15⟩
        ([⟨"openai funding", tokenize "openai funding"⟩], [])
        ⟨"item3", "quantum computing"⟩ =
      ([⟨"openai funding", tokenize "openai funding"⟩,
        ⟨"quantum computing", tokenize "quantum computing"⟩], []) ∧
    buildTopicPenalties [] ⟨7, 30, 3/5, 15⟩ = [] := by
  have hnorm2 : normalizeTopic "OpenAI funding!!" = "openai funding" := by decide
  have hnorm3 : normalizeTopic "quantum computing" = "quantum computing" := by decide
  have hjac :
      jaccardSimilarity (tokenize "quantum computing")
        (tokenize "openai funding") = 0 := by
    have hcne :
        ¬((tokenize "quantum computing").card = 0 ∧
          (tokenize "openai funding").card = 0) := by decide
    have hci :
        ((tokenize "quantum computing") ∩ (tokenize "openai funding")).card = 0 := by
      decide
    unfold jaccardSimilarity
    rw [if_neg hcne, hci]
    simp
  refine ⟨?_, ?_, ?_⟩
  · have h := (claim_C5 ⟨7, 30, 3/5, 15⟩
      [⟨"openai funding", tokenize "openai funding"⟩] [] ⟨"item2", "OpenAI funding!!"⟩).1
    have hex : ∃ s ∈ [(⟨"openai funding", tokenize "openai funding"⟩ : SeenTopic)],
        s.normalized = normalizeTopic "OpenAI funding!!" := by
      refine ⟨_, List.mem_singleton_self _, ?_⟩
      rw [hnorm2]
    simpa [mapSet] using h hex
  · have h := (claim_C5 ⟨7, 30, 3/5, 15⟩
      [⟨"openai funding", tokenize "openai funding"⟩] [] ⟨"item3", "quantum computing"⟩).2.1
    have hb := h (by norm_num) (by norm_num)
      (by intro s hs; simp at hs; rw [hs])
      (by
        intro s hs
        simp at hs
        rw [hs, hnorm3, hjac]
        norm_num)
    simpa [hnorm3] using hb
  · exact (claim_C5 ⟨7, 30, 3/5, 15⟩ [] [] ⟨"", ""⟩).2.2.1

lemma jsTrim_squashSpaces_all_spaces :
    ∀ l : List Char, (∀ c ∈ l, c = ' ') → jsTrim (squashSpaces l) = []
  | [], _ => rfl
  | [c], h => by
    have hc := h c (List.mem_singleton_self c)
    subst hc
    rfl
  | a :: b :: rest, h => by
    have ha := h a (by simp)
    have hb := h b (by simp)
    unfold squashSpaces
    rw [if_pos (by rw [ha, hb]; rfl)]
    exact jsTrim_squashSpaces_all_spaces (b :: rest)
      (fun c hc => h c (List.mem_cons_of_mem a hc))

lemma normalizeTopic_empty_of_no_content (t : String)
    (h : ∀ c ∈ t.data, isTopicContentChar (jsToLower c) = false) :
    normalizeTopic t = "" := by
  unfold normalizeTopic
  dsimp only
  have hall :
      ∀ c ∈ (t.data.map jsToLower).map
          (fun c => if isTopicKept c then c else ' ') |>.map
          (fun c => if isJsWhitespace c then ' ' else c),
        c = ' ' := by
    intro c hc
    simp only [List.mem_map] at hc
    rcases hc with ⟨c2, ⟨c1, ⟨c0, hc0, rfl⟩, rfl⟩, rfl⟩
    have hcc := h c0 hc0
    unfold isTopicContentChar at hcc
    by_cases hk : isTopicKept (jsToLower c0)
    · have hws : isJsWhitespace (jsToLower c0) = true := by
        rw [hk] at hcc
        simpa using hcc
      rw [if_pos hk, if_pos hws]
    · rw [if_neg hk, if_pos (by rfl)]
  rw [jsTrim_squashSpaces_all_spaces _ hall]

/-- Claim C10. Two topic labels containing no letters, digits or CJK
ideographs both normalize to the empty string; the Jaccard similarity of
two empty token sets is 1; and in the penalty map built from the two rows
the later label is treated as an exact duplicate of the earlier one,
receiving the exact (strong) penalty. -/
theorem claim_C10 (i1 i2 t1 t2 : String) (cfg : TopicDedupCfg)
    (h1 : ∀ c ∈ t1.data, isTopicContentChar (jsToLower c) = false)
    (h2 : ∀ c ∈ t2.data, isTopicContentChar (jsToLower c) = false)
    (hth : 0 < cfg.fuzzy_threshold) :
    normalizeTopic t1 = "" ∧ normalizeTopic t2 = "" ∧
    jaccardSimilarity ∅ ∅ = 1 ∧
    buildTopicPenalties [⟨i1, t1⟩, ⟨i2, t2⟩] cfg =
      [(i2, -cfg.exact_penalty)] := by
  have hn1 := normalizeTopic_empty_of_no_content t1 h1
  have hn2 := normalizeTopic_empty_of_no_content t2 h2
  refine ⟨hn1, hn2, by unfold jaccardSimilarity; simp, ?_⟩
  unfold buildTopicPenalties
  simp only [List.isEmpty_cons, List.foldl_cons, List.foldl_nil]
  have hstep1 :
      topicStep cfg ([], []) ⟨i1, t1⟩ = ([⟨"", tokenize ""⟩], []) := by
    unfold topicStep
    dsimp only
    rw [hn1]
    rw [show maxSimilarityAgainst "" (tokenize "") [] 0 = 0 from rfl]
    rw [if_neg (by norm_num), if_neg (by exact not_le.mpr hth)]
    rfl
  rw [hstep1]
  unfold topicStep
  dsimp only
  rw [hn2]
  rw [show maxSimilarityAgainst "" (tokenize "") [⟨"", tokenize ""⟩] 0 = 1 by
    unfold maxSimilarityAgainst; rw [if_pos rfl]]
  rw [if_pos rfl]
  simp [mapSet]

/-- Witness for claim C10: pure-punctuation labels at a concrete
configuration give the later row the exact penalty of 30. -/
theorem claim_C10_witness :
    buildTopicPenalties [⟨"itemA", "!!!"⟩, ⟨"itemB", "?!?"⟩] ⟨7, 30, 3/5, 15⟩ =
      [("itemB", -30)] := by
  have h := claim_C10 "itemA" "itemB" "!!!" "?!?" ⟨7, 30, 3/5, 15⟩
    (by decide) (by decide) (by norm_num)
  simpa using h.2.2.2

/-- Claim C2. For every raw response whose fence-stripped text fails schema
validation, parseWithRetry issues exactly one repair call; if the repaired
output also fails validation it returns the terminal error carrying both
the original and the repair error messages; and in all cases it never
issues more than one repair call. -/
theorem claim_C2 {T : Type} (schema : SchemaFn T) (raw : String)
    (client : ChatClient) (systemMessage : String) :
    (∀ firstError, schema (stripCodeFences raw) = .error firstError →
      (parseWithRetry schema raw client systemMessage).2 = 1 ∧
      (∀ resp repairError,
        client [⟨"system", systemMessage⟩,
          ⟨"user", buildRepairPrompt firstError (stripCodeFences raw)⟩] =
            .ok resp →
        schema (stripCodeFences resp.content) = .error repairError →
        (parseWithRetry schema raw client systemMessage).1 =
          .error (.invalidAfterRepair firstError repairError
            (jsSlice (stripCodeFences resp.content) 500)))) ∧
    (parseWithRetry schema raw client systemMessage).2 ≤ 1 := by
  constructor
  · intro firstError he
    constructor
    · cases hc : client [⟨"system", systemMessage⟩,
          ⟨"user", buildRepairPrompt firstError (stripCodeFences raw)⟩] with
      | error err => simp [parseWithRetry, he, hc]
      | ok resp =>
        cases hs : schema (stripCodeFences resp.content) with
        | ok v => simp [parseWithRetry, he, hc, hs]
        | error e2 => simp [parseWithRetry, he, hc, hs]
    · intro resp repairError hc hs
      simp [parseWithRetry, he, hc, hs]
  · cases h1 : schema (stripCodeFences raw) with
    | ok v => simp [parseWithRetry, h1]
    | error e1 =>
      cases hc : client [⟨"system", systemMessage⟩,
          ⟨"user", buildRepairPrompt e1 (stripCodeFences raw)⟩] with
      | error err => simp [parseWithRetry, h1, hc]
      | ok resp =>
        cases hs : schema (stripCodeFences resp.content) with
        | ok v => simp [parseWithRetry, h1, hc, hs]
        | error e2 => simp [parseWithRetry, h1, hc, hs]

/-- Witness for claim C2: a schema that always rejects and a client whose
repair response also fails lead to one repair call and the terminal error
carrying both messages. -/
theorem claim_C2_witness :
    parseWithRetry (fun _ => (Except.error "bad" : Except String Unit)) "x"
        (fun _ => Except.ok ⟨"y", "m", 3, 0⟩) "sys" =
      (Except.error (LlmFail.invalidAfterRepair "bad" "bad" "y"), 1) := by
  have h := claim_C2 (fun _ => (Except.error "bad" : Except String Unit)) "x"
    (fun _ => Except.ok ⟨"y", "m", 3, 0⟩) "sys"
  have h1 := h.1 "bad" rfl
  have h2 := h1.2 ⟨"y", "m", 3, 0⟩ "bad" rfl rfl
  have hpair :
      parseWithRetry (fun _ => (Except.error "bad" : Except String Unit)) "x"
          (fun _ => Except.ok ⟨"y", "m", 3, 0⟩) "sys" =
        ((parseWithRetry (fun _ => (Except.error "bad" : Except String Unit))
            "x" (fun _ => Except.ok ⟨"y", "m", 3, 0⟩) "sys").1,
          (parseWithRetry (fun _ => (Except.error "bad" : Except String Unit))
            "x" (fun _ => Except.ok ⟨"y", "m", 3, 0⟩) "sys").2) := rfl
  rw [hpair, h2, h1.1]
  rfl

/-- Claim C9. Full escalation for an item whose stored pack already has
tier full is a no-op: it returns without error, issues zero chat calls and
leaves the store (hence every field of the stored pack) unchanged. -/
theorem claim_C9 (env : ScorePackEnv) (db : Db) (itemId personaName : String)
    (p : ScorePackRec) (hfind : findPackAny db itemId personaName = some p)
    (hfull : p.pack_level = Tier.full) :
    upgradeToFull env db itemId personaName = (.ok db, 0) := by
  unfold upgradeToFull
  rw [hfind]
  dsimp only
  rw [if_pos (by rw [hfull]; rfl)]

/-- Witness for claim C9: the concrete store with a full pack for i1 is
returned unchanged with zero calls. -/
theorem claim_C9_witness :
    upgradeToFull fixtureEnvOk fixtureDb "i1" "p" = (.ok fixtureDb, 0) :=
  claim_C9 fixtureEnvOk fixtureDb "i1" "p" fixtureFullPack rfl rfl

/-- Claim C1. When the pre-computed budget plan (lite calls = requested
budget, full calls = auto-pick count, one compose call, cost = calls times
the per-call estimate) exceeds the call ceiling or the cost ceiling, the
orchestrator returns the corresponding budget error with zero AI calls and
zero database writes, regardless of the pipeline continuation. -/
theorem claim_C1 {α : Type} (opts : AutopilotOpts) (defaultBudget : Nat)
    (cfg : BudgetCfg) (onPlan : Option Bool)
    (pipeline : Except AutopilotFail α × SideEffects)
    (hexceed :
      cfg.max_llm_calls_per_run <
          (buildAutopilotPlan (opts.budget.getD defaultBudget)
            (opts.autoPickCount.getD 5) cfg).totalLlmCalls ∨
        cfg.max_cost_usd_per_run <
          (buildAutopilotPlan (opts.budget.getD defaultBudget)
            (opts.autoPickCount.getD 5) cfg).estimatedCost) :
    runAutopilot true opts defaultBudget cfg onPlan pipeline =
      (if cfg.max_llm_calls_per_run <
          (buildAutopilotPlan (opts.budget.getD defaultBudget)
            (opts.autoPickCount.getD 5) cfg).totalLlmCalls then
        (.error
          (.budgetCallsExceeded
            (buildAutopilotPlan (opts.budget.getD defaultBudget)
              (opts.autoPickCount.getD 5) cfg).totalLlmCalls
            cfg.max_llm_calls_per_run), ⟨0, 0⟩)
      else
        (.error
          (.budgetCostExceeded
            (buildAutopilotPlan (opts.budget.getD defaultBudget)
              (opts.autoPickCount.getD 5) cfg).estimatedCost
            cfg.max_cost_usd_per_run), ⟨0, 0⟩)) := by
  unfold runAutopilot
  dsimp only
  rw [if_neg (by simp)]
  by_cases h1 : cfg.max_llm_calls_per_run <
      (buildAutopilotPlan (opts.budget.getD defaultBudget)
        (opts.autoPickCount.getD 5) cfg).totalLlmCalls
  · rw [if_pos h1, if_pos h1]
  · rw [if_neg h1, if_neg h1]
    have h2 : cfg.max_cost_usd_per_run <
        (buildAutopilotPlan (opts.budget.getD defaultBudget)
          (opts.autoPickCount.getD 5) cfg).estimatedCost := by
      rcases hexceed with h | h
      · exact absurd h h1
      · exact h
    rw [if_pos h2]

/-- Witness for claim C1: a requested budget of 100 with auto-pick 5
against a ceiling of 50 calls fails with the calls-exceeded error, zero
AI calls and zero writes, even though the supplied pipeline continuation
would have performed nine calls and nine writes. -/
theorem claim_C1_witness :
    runAutopilot true ⟨"p", some 100, some 5⟩ 30 ⟨50, 1/5, 1/1000⟩ none
        ((Except.ok 0 : Except AutopilotFail Nat), ⟨9, 9⟩) =
      (.error (.budgetCallsExceeded 106 50), ⟨0, 0⟩) := by
  have h := claim_C1 (α := Nat) ⟨"p", some 100, some 5⟩ 30 ⟨50, 1/5, 1/1000⟩
    none (.ok 0, ⟨9, 9⟩) (Or.inl (by norm_num [buildAutopilotPlan]))
  rw [h]
  norm_num [buildAutopilotPlan]

lemma composeCollect_notFull (env : ComposeEnv) (db : Db)
    (personaName : String) :
    ∀ (ids : List String) (i : Nat),
      (composeCollect env db personaName i ids).2 =
        ids.filter fun itemId => lacksFullDonePack db itemId personaName
  | [], _ => rfl
  | itemId :: rest, i => by
    have ih := composeCollect_notFull env db personaName rest (i + 1)
    unfold composeCollect
    rw [show composeCollect env db personaName (i + 1) rest =
        ((composeCollect env db personaName (i + 1) rest).1,
          (composeCollect env db personaName (i + 1) rest).2) from rfl]
    cases hd : findDonePack db itemId personaName with
    | none =>
      have hpred : lacksFullDonePack db itemId personaName = true := by
        unfold lacksFullDonePack
        rw [hd]
      dsimp only
      rw [ih]
      simp [List.filter_cons, hpred]
    | some sp =>
      by_cases hlvl : sp.pack_level == Tier.full
      · have hpred : lacksFullDonePack db itemId personaName = false := by
          unfold lacksFullDonePack
          rw [hd]
          simp [hlvl]
        dsimp only
        rw [if_pos hlvl]
        cases hi : findItem db itemId with
        | none =>
          dsimp only
          rw [ih]
          simp [List.filter_cons, hpred]
        | some item =>
          dsimp only
          rw [ih]
          simp [List.filter_cons, hpred]
      · have hpred : lacksFullDonePack db itemId personaName = true := by
          unfold lacksFullDonePack
          rw [hd]
          simp [Bool.not_eq_true] at hlvl
          simp [hlvl]
        dsimp only
        rw [if_neg hlvl]
        dsimp only
        rw [ih]
        simp [List.filter_cons, hpred]

/-- Claim C3. A compose request whose draft selection contains at least one
item id without a done full-tier pack returns the not-fully-scored error
naming exactly the offending ids in selection order, with zero chat calls
issued and the store (hence the draft) unchanged. -/
theorem claim_C3 (env : ComposeEnv) (db : Db) (draftId personaName : String)
    (draft : DraftRec) (hdraft : getDraft db draftId = some draft)
    (hoff :
      draft.selected_item_ids.filter
        (fun itemId => lacksFullDonePack db itemId personaName) ≠ []) :
    runCompose env db draftId personaName =
      (.error
        (.notFullyScored
          (draft.selected_item_ids.filter
            (fun itemId => lacksFullDonePack db itemId personaName))),
        0, db) := by
  have hnf := composeCollect_notFull env db personaName
    draft.selected_item_ids 0
  have hne : draft.selected_item_ids.isEmpty = false := by
    cases hsel : draft.selected_item_ids with
    | nil => rw [hsel] at hoff; simp at hoff
    | cons a t => rfl
  unfold runCompose
  rw [hdraft]
  dsimp only
  rw [hne]
  simp only [Bool.false_eq_true, if_false]
  have hempty :
      (composeCollect env db personaName 0 draft.selected_item_ids).2.isEmpty =
        false := by
    rw [hnf]
    cases hh : draft.selected_item_ids.filter
        (fun itemId => lacksFullDonePack db itemId personaName) with
    | nil => exact absurd hh hoff
    | cons a t => rfl
  rw [show (composeCollect env db personaName 0 draft.selected_item_ids) =
      ((composeCollect env db personaName 0 draft.selected_item_ids).1,
        (composeCollect env db personaName 0 draft.selected_item_ids).2)
    from rfl]
  dsimp only
  rw [hempty]
  simp [hnf]

/-- Witness for claim C3: a draft selecting i1 (fully scored) and i2 (not
scored) fails with the error naming exactly i2, zero calls, store
unchanged. -/
theorem claim_C3_witness :
    runCompose fixtureComposeEnv fixtureComposeDb "d1" "p" =
      (.error (.notFullyScored ["i2"]), 0, fixtureComposeDb) := by
  have h := claim_C3 fixtureComposeEnv fixtureComposeDb "d1" "p" fixtureDraft
    rfl (by decide)
  have hfilter :
      fixtureDraft.selected_item_ids.filter
        (fun itemId => lacksFullDonePack fixtureComposeDb itemId "p") =
      ["i2"] := by decide
  rw [h, hfilter]

lemma jsRoundR_one_hour_exp :
    jsRoundR ((100 : ℝ) * Real.exp (-(1/100) * ((1 : ℚ) : ℝ))) = 99 := by
  unfold jsRoundR
  rw [Int.floor_eq_iff]
  constructor
  · have h := Real.add_one_le_exp (-(1/100) : ℝ)
    push_cast
    nlinarith
  · have h := Real.add_one_le_exp ((1/100) : ℝ)
    have hpos : (0 : ℝ) < 1/100 + 1 := by norm_num
    have hinv :
        Real.exp (-(1/100) * ((1 : ℚ) : ℝ)) ≤ (1/100 + 1)⁻¹ := by
      rw [show (-(1/100) * ((1 : ℚ) : ℝ) : ℝ) = -(1/100) by push_cast; ring,
        Real.exp_neg]
      exact inv_anti₀ hpos h
    push_cast
    nlinarith [Real.exp_pos ((1/100) : ℝ)]

lemma computeFreshness_one_hour : computeFreshness 3600000 (some 0) = 99 := by
  unfold computeFreshness
  dsimp only
  rw [show ((3600000 : ℚ) - 0) / (1000 * 60 * 60) = 1 by norm_num]
  rw [if_neg (by norm_num)]
  rw [jsRoundR_one_hour_exp]
  norm_num

lemma scenarioA_keyword :
    computeKeywordMatch "ai and rust news" none scenarioAPersona = 93 := by
  unfold computeKeywordMatch scenarioAPersona
  dsimp only
  rw [show (List.countP
      (fun kw => jsIncludes
        ((("ai and rust news" : String).data ++
          ' ' :: ((none : Option String).getD "").data).map jsToLower)
        (kw.data.map jsToLower)) ["ai", "rust", "wasm"]) = 2 from by decide]
  rw [show (List.countP
      (fun kw => jsIncludes
        ((("ai and rust news" : String).data ++
          ' ' :: ((none : Option String).getD "").data).map jsToLower)
        (kw.data.map jsToLower)) ["crypto"]) = 0 from by decide]
  rw [if_neg (by norm_num)]
  rw [if_neg (by norm_num)]
  rw [show jsRound (20 + ((2 : ℕ) : ℚ) / (((["ai", "rust", "wasm"] :
      List String).length : ℕ) : ℚ) * 80 + ((min 2 3 : ℕ) : ℚ) * 10) = 93 from by
    norm_num [jsRound, Int.floor_eq_iff]]
  norm_num

lemma scenarioA_trust :
    computeSourceTrust (some "news.example.com") scenarioAPersona = 90 := by
  unfold computeSourceTrust scenarioAPersona
  dsimp only
  rw [if_neg (by decide)]
  rw [if_pos (by decide)]

lemma scenarioA_score :
    (cheapScoreItem 3600000 scenarioAItem scenarioAPersona scenarioAWeights
      0).cheap_score = 91 := by
  unfold cheapScoreItem scenarioAItem scenarioAWeights
  dsimp only
  rw [computeFreshness_one_hour, scenarioA_keyword, scenarioA_trust]
  rw [show computeLanguageMatch (some "en") scenarioAPersona = 100 from by decide]
  rw [show computeLengthSanity (some 500) scenarioAPersona.min_word_count = 100
    from by decide]
  rw [if_neg (by simp)]
  rw [show (99 : ℚ) * (1/4) + 93 * (3/10) + 90 * (1/5) + 100 * (1/10) +
      100 * (1/10) + 0 + 0 = 1813/20 from by norm_num]
  rw [show jsRound (1813/20) = 91 from by norm_num [jsRound, Int.floor_eq_iff]]
  norm_num

/-- Counterexample to claim C6 as stated: the Scenario A item (published
one hour ago, 2-of-3 positive keywords, trusted domain, matching language,
500 words at or above the 300-word minimum, no duplicate, no topic
penalty, the stated weights) scores 91, which is not in the high-70s to
high-80s band. -/
theorem claim_C6_counterexample :
    (cheapScoreItem 3600000 scenarioAItem scenarioAPersona scenarioAWeights
      0).cheap_score = 91 ∧
    ¬((75 : ℚ) ≤ (cheapScoreItem 3600000 scenarioAItem scenarioAPersona
        scenarioAWeights 0).cheap_score ∧
      (cheapScoreItem 3600000 scenarioAItem scenarioAPersona scenarioAWeights
        0).cheap_score ≤ 89) := by
  refine ⟨scenarioA_score, ?_⟩
  rw [scenarioA_score]
  norm_num

/-- Claim C6, amended: the Scenario A item receives the heuristic score 91
(slightly above the stated high-70s to high-80s band) and is selected at
threshold 65. -/
theorem claim_C6 :
    (cheapScoreItem 3600000 scenarioAItem scenarioAPersona scenarioAWeights
      0).cheap_score = 91 ∧
    (65 : ℚ) ≤ (cheapScoreItem 3600000 scenarioAItem scenarioAPersona
      scenarioAWeights 0).cheap_score ∧
    selectCandidates 65 5
        [cheapScoreItem 3600000 scenarioAItem scenarioAPersona scenarioAWeights 0] =
      [cheapScoreItem 3600000 scenarioAItem scenarioAPersona scenarioAWeights 0] := by
  refine ⟨scenarioA_score, ?_, ?_⟩
  · rw [scenarioA_score]
    norm_num
  · unfold selectCandidates
    dsimp only
    rw [List.mergeSort_singleton]
    rw [show List.filter
        (fun r => decide ((65 : ℚ) ≤ r.cheap_score))
        [cheapScoreItem 3600000 scenarioAItem scenarioAPersona scenarioAWeights 0] =
        [cheapScoreItem 3600000 scenarioAItem scenarioAPersona scenarioAWeights 0]
      from by
        rw [List.filter_cons]
        rw [if_pos (by rw [scenarioA_score]; norm_num)]
        rfl]
    rw [if_pos (by norm_num)]
    rfl

/-- Claim C7, amended. The candidate set is exactly the (sorted) items at
or above the threshold when at least the configured minimum meet it (and
is a permutation of the thresholded input); otherwise it is the top-N of
the sorted list with N the configured minimum; and a non-empty batch
yields a non-empty candidate set whenever the configured minimum is at
least 1. -/
theorem claim_C7 (threshold : ℚ) (minCandidates : Nat)
    (results : List CheapScoreResult) :
    (minCandidates ≤ results.countP (fun r => threshold ≤ r.cheap_score) →
      selectCandidates threshold minCandidates results =
        (results.mergeSort fun a b => b.cheap_score ≤ a.cheap_score).filter
          (fun r => threshold ≤ r.cheap_score) ∧
      List.Perm (selectCandidates threshold minCandidates results)
        (results.filter fun r => threshold ≤ r.cheap_score)) ∧
    (results.countP (fun r => threshold ≤ r.cheap_score) < minCandidates →
      selectCandidates threshold minCandidates results =
        (results.mergeSort fun a b => b.cheap_score ≤ a.cheap_score).take
          minCandidates) ∧
    (results ≠ [] → 1 ≤ minCandidates →
      selectCandidates threshold minCandidates results ≠ []) := by
  have hperm := List.mergeSort_perm results
    (fun a b => b.cheap_score ≤ a.cheap_score)
  have hcount :
      ((results.mergeSort fun a b => b.cheap_score ≤ a.cheap_score).filter
        (fun r => threshold ≤ r.cheap_score)).length =
      results.countP (fun r => threshold ≤ r.cheap_score) := by
    rw [← List.countP_eq_length_filter]
    exact hperm.countP_eq _
  refine ⟨?_, ?_, ?_⟩
  · intro hge
    constructor
    · unfold selectCandidates
      dsimp only
      rw [if_neg (by rw [hcount]; omega)]
    · unfold selectCandidates
      dsimp only
      rw [if_neg (by rw [hcount]; omega)]
      exact hperm.filter _
  · intro hlt
    unfold selectCandidates
    dsimp only
    rw [if_pos (by rw [hcount]; omega)]
    rw [hcount]
    rw [Nat.max_eq_left (Nat.le_of_lt hlt)]
  · intro hne hmin
    have hlp : 0 < results.length := List.length_pos.mpr hne
    by_cases hcase :
        results.countP (fun r => threshold ≤ r.cheap_score) < minCandidates
    · unfold selectCandidates
      dsimp only
      rw [if_pos (by rw [hcount]; omega)]
      intro habs
      have hlen := congrArg List.length habs
      rw [List.length_take, hcount, Nat.max_eq_left (Nat.le_of_lt hcase),
        hperm.length_eq, List.length_nil] at hlen
      omega
    · unfold selectCandidates
      dsimp only
      rw [if_neg (by rw [hcount]; omega)]
      intro habs
      have hge := Nat.le_of_not_lt hcase
      have hlen := congrArg List.length habs
      rw [hcount, List.length_nil] at hlen
      omega

/-- Counterexample to claim C7 as stated: with a configured minimum of 0
and the default threshold 65, a non-empty scored batch yields an empty
candidate set. -/
theorem claim_C7_counterexample :
    ([⟨"a", 50, ⟨50, 50, 50, 50, 50, 0, 0⟩⟩] : List CheapScoreResult) ≠ [] ∧
    selectCandidates 65 0 [⟨"a", 50, ⟨50, 50, 50, 50, 50, 0, 0⟩⟩] = [] := by
  constructor
  · simp
  · unfold selectCandidates
    dsimp only
    rw [List.mergeSort_singleton]
    rw [show List.filter (fun r => decide ((65 : ℚ) ≤ r.cheap_score))
        [(⟨"a", 50, ⟨50, 50, 50, 50, 50, 0, 0⟩⟩ : CheapScoreResult)] = []
      from by
        rw [List.filter_cons]
        rw [if_neg (by norm_num)]
        rfl]
    simp

/-- Witness for claim C7: at threshold 65 and minimum 1, the singleton
batch scoring 80 is selected, and the selection is non-empty. -/
theorem claim_C7_witness :
    selectCandidates 65 1 [fixtureCand] = [fixtureCand] ∧
    selectCandidates 65 1 [fixtureCand] ≠ [] := by
  have hcp : ([fixtureCand] : List CheapScoreResult).countP
      (fun r => (65 : ℚ) ≤ r.cheap_score) = 1 := by
    rw [List.countP_cons]
    simp [fixtureCand]
    norm_num
  have h := claim_C7 65 1 [fixtureCand]
  have h1 := (h.1 (by rw [hcp])).1
  constructor
  · rw [h1, List.mergeSort_singleton, List.filter_cons]
    rw [if_pos (by simp [fixtureCand]; norm_num)]
    rfl
  · exact h.2.2 (by simp) (Nat.le_refl 1)

lemma find?_map_frame {α : Type} (l : List α) (f : α → α) (pred : α → Bool)
    (h1 : ∀ a, pred a = true → f a = a)
    (h2 : ∀ a, pred a = false → pred (f a) = false) :
    (l.map f).find? pred = l.find? pred := by
  induction l with
  | nil => rfl
  | cons a t ih =>
    cases hp : pred a with
    | true =>
      rw [List.map_cons, List.find?_cons_of_pos _ (by rw [h1 a hp]; exact hp),
        List.find?_cons_of_pos _ hp, h1 a hp]
    | false =>
      rw [List.map_cons, List.find?_cons_of_neg _ (by simp [h2 a hp]),
        List.find?_cons_of_neg _ (by simp [hp]), ih]

lemma find?_map_key_stable {α : Type} (l : List α) (f : α → α)
    (pred : α → Bool) (h : ∀ a, pred (f a) = pred a) :
    (l.map f).find? pred = (l.find? pred).map f := by
  induction l with
  | nil => rfl
  | cons a t ih =>
    cases hp : pred a with
    | true =>
      rw [List.map_cons, List.find?_cons_of_pos _ (by rw [h a]; exact hp),
        List.find?_cons_of_pos _ hp]
      rfl
    | false =>
      rw [List.map_cons, List.find?_cons_of_neg _ (by simp [h a, hp]),
        List.find?_cons_of_neg _ (by simp [hp]), ih]

lemma upsertPacks_find?_frame (packs : List ScorePackRec) (i n : String)
    (fresh : ScorePackRec) (upd : ScorePackRec → ScorePackRec)
    (pred : ScorePackRec → Bool)
    (hfresh : fresh.item_id = i ∧ fresh.persona_name = n)
    (hupd : ∀ p, (upd p).item_id = p.item_id ∧
      (upd p).persona_name = p.persona_name)
    (hkey : ∀ p : ScorePackRec, p.item_id = i → p.persona_name = n →
      pred p = false) :
    (upsertPacks packs i n fresh upd).find? pred = packs.find? pred := by
  unfold upsertPacks
  by_cases hany : packs.any fun p => p.item_id == i && p.persona_name == n
  · rw [if_pos hany]
    apply find?_map_frame
    · intro a ha
      by_cases hk : (a.item_id == i && a.persona_name == n) = true
      · exfalso
        have hi : a.item_id = i :=
          beq_iff_eq.mp ((Bool.and_eq_true _ _).mp hk).1
        have hn : a.persona_name = n :=
          beq_iff_eq.mp ((Bool.and_eq_true _ _).mp hk).2
        rw [hkey a hi hn] at ha
        exact Bool.false_ne_true ha
      · rw [if_neg hk]
    · intro a ha
      by_cases hk : (a.item_id == i && a.persona_name == n) = true
      · rw [if_pos hk]
        have hi : a.item_id = i :=
          beq_iff_eq.mp ((Bool.and_eq_true _ _).mp hk).1
        have hn : a.persona_name = n :=
          beq_iff_eq.mp ((Bool.and_eq_true _ _).mp hk).2
        exact hkey (upd a) ((hupd a).1.trans hi) ((hupd a).2.trans hn)
      · rw [if_neg hk]
        exact ha
  · rw [if_neg hany]
    rw [List.find?_append]
    have hf : [fresh].find? pred = none := by
      rw [List.find?_cons_of_neg _ (by simp [hkey fresh hfresh.1 hfresh.2])]
      rfl
    rw [hf]
    exact Option.or_none

lemma upsertPacks_find?_key (packs : List ScorePackRec) (i n : String)
    (fresh : ScorePackRec) (upd : ScorePackRec → ScorePackRec)
    (hfresh : fresh.item_id = i ∧ fresh.persona_name = n)
    (hupd : ∀ p, (upd p).item_id = p.item_id ∧
      (upd p).persona_name = p.persona_name) :
    (upsertPacks packs i n fresh upd).find?
        (fun p => p.item_id == i && p.persona_name == n) =
      match packs.find? (fun p => p.item_id == i && p.persona_name == n) with
      | some p => some (upd p)
      | none => some fresh := by
  unfold upsertPacks
  by_cases hany : packs.any fun p => p.item_id == i && p.persona_name == n
  · rw [if_pos hany]
    rw [find?_map_key_stable _ _ _ (by
      intro a
      by_cases hk : (a.item_id == i && a.persona_name == n) = true
      · rw [if_pos hk]
        have h1 := (hupd a).1
        have h2 := (hupd a).2
        rw [show ((upd a).item_id == i) = (a.item_id == i) from by rw [h1]]
        rw [show ((upd a).persona_name == n) = (a.persona_name == n) from by
          rw [h2]]
      · rw [if_neg hk])]
    rcases hfound : packs.find?
        (fun p => p.item_id == i && p.persona_name == n) with _ | p
    · exfalso
      rw [List.find?_eq_none] at hfound
      rcases List.any_eq_true.mp hany with ⟨x, hx, hxp⟩
      exact hfound x hx hxp
    · have hp := List.find?_some hfound
      rw [hfound]
      dsimp only [Option.map]
      rw [if_pos hp]
  · rw [if_neg hany]
    rw [List.find?_append]
    have hnone : packs.find? (fun p => p.item_id == i && p.persona_name == n) =
        none := by
      rw [List.find?_eq_none]
      intro x hx hxp
      exact hany (List.any_eq_true.mpr ⟨x, hx, hxp⟩)
    rw [hnone]
    rw [List.find?_cons_of_pos _ (by
      rw [show (fresh.item_id == i) = true from by
        rw [hfresh.1]; exact beq_self_eq_true i]
      rw [show (fresh.persona_name == n) = true from by
        rw [hfresh.2]; exact beq_self_eq_true n]
      rfl)]
    rfl

lemma packKeyPred_false (x m i n : String) (p : ScorePackRec)
    (hpi : p.item_id = i) (hpn : p.persona_name = n)
    (hne : ¬(x = i ∧ m = n)) :
    (p.item_id == x && p.persona_name == m) = false := by
  rw [hpi, hpn]
  cases hx : (i == x) with
  | false => rw [Bool.false_and]
  | true =>
    have hxe : i = x := beq_iff_eq.mp hx
    have hm : ¬n = m := fun hmn => hne ⟨hxe.symm, hmn.symm⟩
    rw [Bool.true_and, beq_eq_false_iff_ne.mpr hm]

lemma upsertPacks_findAny_frame (packs : List ScorePackRec) (i n : String)
    (fresh : ScorePackRec) (upd : ScorePackRec → ScorePackRec) (x m : String)
    (hfresh : fresh.item_id = i ∧ fresh.persona_name = n)
    (hupd : ∀ p, (upd p).item_id = p.item_id ∧
      (upd p).persona_name = p.persona_name)
    (hne : ¬(x = i ∧ m = n)) :
    (upsertPacks packs i n fresh upd).find?
        (fun p => p.item_id == x && p.persona_name == m) =
      packs.find? (fun p => p.item_id == x && p.persona_name == m) :=
  upsertPacks_find?_frame packs i n fresh upd _ hfresh hupd
    (fun p hpi hpn => packKeyPred_false x m i n p hpi hpn hne)

lemma upsertPacks_findDone_frame (packs : List ScorePackRec) (i n : String)
    (fresh : ScorePackRec) (upd : ScorePackRec → ScorePackRec) (x m : String)
    (hfresh : fresh.item_id = i ∧ fresh.persona_name = n)
    (hupd : ∀ p, (upd p).item_id = p.item_id ∧
      (upd p).persona_name = p.persona_name)
    (hne : ¬(x = i ∧ m = n)) :
    (upsertPacks packs i n fresh upd).find?
        (fun p => p.item_id == x && p.persona_name == m &&
          p.llm_status == LlmStatus.done) =
      packs.find? (fun p => p.item_id == x && p.persona_name == m &&
        p.llm_status == LlmStatus.done) :=
  upsertPacks_find?_frame packs i n fresh upd _ hfresh hupd
    (fun p hpi hpn => by
      rw [packKeyPred_false x m i n p hpi hpn hne, Bool.false_and])

lemma markFailedPack_findPackAny_self (db : Db) (env : ScorePackEnv)
    (i n : String) :
    ∃ q, findPackAny (markFailedPack db env i n) i n = some q ∧
      q.llm_status = LlmStatus.failed := by
  unfold findPackAny markFailedPack
  dsimp only
  rw [upsertPacks_find?_key db.score_packs i n (markFailedFresh env i n)
    markFailedUpd ⟨rfl, rfl⟩ (fun _ => ⟨rfl, rfl⟩)]
  cases db.score_packs.find? fun p => p.item_id == i && p.persona_name == n with
  | none => exact ⟨_, rfl, rfl⟩
  | some p => exact ⟨_, rfl, rfl⟩

lemma markFailedPack_frame (db : Db) (env : ScorePackEnv) (i n x m : String)
    (hne : ¬(x = i ∧ m = n)) :
    findPackAny (markFailedPack db env i n) x m = findPackAny db x m ∧
    findDonePack (markFailedPack db env i n) x m = findDonePack db x m ∧
    (markFailedPack db env i n).items = db.items :=
  ⟨upsertPacks_findAny_frame _ _ _ _ _ _ _ ⟨rfl, rfl⟩ (fun _ => ⟨rfl, rfl⟩) hne,
    upsertPacks_findDone_frame _ _ _ _ _ _ _ ⟨rfl, rfl⟩ (fun _ => ⟨rfl, rfl⟩) hne,
    rfl⟩

lemma upsertLitePack_frame (db : Db) (env : ScorePackEnv) (i n : String)
    (parsed : LiteOutput) (resp : LlmResponse) (x m : String)
    (hne : ¬(x = i ∧ m = n)) :
    findPackAny (upsertLitePack db env i n parsed resp) x m =
        findPackAny db x m ∧
    findDonePack (upsertLitePack db env i n parsed resp) x m =
        findDonePack db x m ∧
    (upsertLitePack db env i n parsed resp).items = db.items :=
  ⟨upsertPacks_findAny_frame _ _ _ _ _ _ _ ⟨rfl, rfl⟩ (fun _ => ⟨rfl, rfl⟩) hne,
    upsertPacks_findDone_frame _ _ _ _ _ _ _ ⟨rfl, rfl⟩ (fun _ => ⟨rfl, rfl⟩) hne,
    rfl⟩

lemma upsertFullPack_frame (db : Db) (env : ScorePackEnv) (i n : String)
    (parsed : FullOutput) (resp : LlmResponse) (x m : String)
    (hne : ¬(x = i ∧ m = n)) :
    findPackAny (upsertFullPack db env i n parsed resp) x m =
        findPackAny db x m ∧
    findDonePack (upsertFullPack db env i n parsed resp) x m =
        findDonePack db x m ∧
    (upsertFullPack db env i n parsed resp).items = db.items :=
  ⟨upsertPacks_findAny_frame _ _ _ _ _ _ _ ⟨rfl, rfl⟩ (fun _ => ⟨rfl, rfl⟩) hne,
    upsertPacks_findDone_frame _ _ _ _ _ _ _ ⟨rfl, rfl⟩ (fun _ => ⟨rfl, rfl⟩) hne,
    rfl⟩

lemma liteStep_frame (env : ScorePackEnv) (personaName : String) (force : Bool)
    (stats : ScorePackStats) (db : Db) (c : CheapScoreResult) (x m : String)
    (hne : ¬(x = c.item_id ∧ m = personaName)) :
    findPackAny (liteStep env personaName force (stats, db) c).2 x m =
        findPackAny db x m ∧
    findDonePack (liteStep env personaName force (stats, db) c).2 x m =
        findDonePack db x m ∧
    (liteStep env personaName force (stats, db) c).2.items = db.items := by
  unfold liteStep
  dsimp only
  by_cases hcache :
      (!force && (findDonePack db c.item_id personaName).isSome) = true
  · rw [if_pos hcache]
    exact ⟨rfl, rfl, rfl⟩
  · rw [if_neg hcache]
    cases hitem : findItem db c.item_id with
    | none => exact ⟨rfl, rfl, rfl⟩
    | some item =>
      have hitem2 : db.items.find? (fun i => i.id == c.item_id) = some item :=
        hitem
      have hb := List.find?_some hitem2
      have hid : item.id = c.item_id := beq_iff_eq.mp hb
      have hne2 : ¬(x = item.id ∧ m = personaName) := by
        rw [hid]
        exact hne
      dsimp only
      cases hchat : env.chat (env.liteMessages item.id) with
      | error e =>
        dsimp only
        exact markFailedPack_frame db env item.id personaName x m hne2
      | ok resp =>
        dsimp only
        cases hparse :
            (parseWithRetry env.liteSchema resp.content env.chat
              (headContent (env.liteMessages item.id))).1 with
        | ok parsed =>
          dsimp only
          exact upsertLitePack_frame db env item.id personaName parsed resp x m
            hne2
        | error e =>
          dsimp only
          exact markFailedPack_frame db env item.id personaName x m hne2

lemma liteStep_preserves_done (env : ScorePackEnv) (personaName : String)
    (stats : ScorePackStats) (db : Db) (c : CheapScoreResult) (x m : String)
    (p : ScorePackRec) (hdone : findDonePack db x m = some p) :
    findDonePack (liteStep env personaName false (stats, db) c).2 x m =
      some p := by
  by_cases hkey : x = c.item_id ∧ m = personaName
  · unfold liteStep
    dsimp only
    rw [if_pos (by
      rw [Bool.not_false, Bool.true_and, ← hkey.1, ← hkey.2, hdone]
      rfl)]
    exact hdone
  · rw [(liteStep_frame env personaName false stats db c x m hkey).2.1]
    exact hdone

lemma foldl_liteStep_preserves_done (env : ScorePackEnv)
    (personaName : String) :
    ∀ (cands : List CheapScoreResult) (stats : ScorePackStats) (db : Db)
      (x m : String) (p : ScorePackRec),
      findDonePack db x m = some p →
      findDonePack
          (cands.foldl (liteStep env personaName false) (stats, db)).2 x m =
        some p
  | [], _, _, _, _, _, hdone => hdone
  | c :: cs, stats, db, x, m, p, hdone => by
    rw [List.foldl_cons]
    rw [show liteStep env personaName false (stats, db) c =
        ((liteStep env personaName false (stats, db) c).1,
          (liteStep env personaName false (stats, db) c).2) from rfl]
    exact foldl_liteStep_preserves_done env personaName cs _ _ x m p
      (liteStep_preserves_done env personaName stats db c x m p hdone)

lemma upsertFullPack_preserves_full (db : Db) (env : ScorePackEnv)
    (i n : String) (parsed : FullOutput) (resp : LlmResponse) (x m : String)
    (p : ScorePackRec) (hfind : findPackAny db x m = some p)
    (hfull : p.pack_level = Tier.full) :
    ∃ q, findPackAny (upsertFullPack db env i n parsed resp) x m = some q ∧
      q.pack_level = Tier.full := by
  by_cases hkey : x = i ∧ m = n
  · obtain ⟨rfl, rfl⟩ := hkey
    unfold findPackAny upsertFullPack
    dsimp only
    rw [upsertPacks_find?_key db.score_packs x m
      (fullFresh env x m parsed resp) (fullUpd parsed resp) ⟨rfl, rfl⟩
      (fun _ => ⟨rfl, rfl⟩)]
    unfold findPackAny at hfind
    rw [hfind]
    exact ⟨_, rfl, rfl⟩
  · refine ⟨p, ?_, hfull⟩
    rw [(upsertFullPack_frame db env i n parsed resp x m hkey).1]
    exact hfind

lemma upgradeToFullRun_preserves_full (env : ScorePackEnv) (db : Db)
    (itemId personaName : String) (db2 : Db) (x m : String)
    (p : ScorePackRec)
    (hok : (upgradeToFullRun env db itemId personaName).1 = .ok db2)
    (hfind : findPackAny db x m = some p)
    (hfull : p.pack_level = Tier.full) :
    ∃ q, findPackAny db2 x m = some q ∧ q.pack_level = Tier.full := by
  unfold upgradeToFullRun at hok
  cases hitem : findItem db itemId with
  | none =>
    rw [hitem] at hok
    cases hok
  | some item =>
    rw [hitem] at hok
    dsimp only at hok
    cases hchat : env.chat (env.fullMessages item.id) with
    | error e =>
      rw [hchat] at hok
      cases hok
    | ok resp =>
      rw [hchat] at hok
      dsimp only at hok
      rcases hparse : parseWithRetry env.fullSchema resp.content env.chat
          (headContent (env.fullMessages item.id)) with ⟨res, calls⟩
      rw [hparse] at hok
      cases res with
      | ok parsed =>
        dsimp only at hok
        have hdb2 : upsertFullPack db env item.id personaName parsed resp =
            db2 := by
          cases hok
          rfl
        rw [← hdb2]
        exact upsertFullPack_preserves_full db env item.id personaName parsed
          resp x m p hfind hfull
      | error e =>
        dsimp only at hok
        cases hok

/-- Claim C4, amended. Tier never regresses from full to lite except
through a force-refresh lite re-score: (a) under force = false every done
pack (in particular a full one) survives a whole lite batch byte-for-byte;
(b) the failed marking never alters the tier of any existing pack — it only
flips llm_status, or appends a fresh lite row for a previously absent key;
(c) full escalation never lowers a full tier. -/
theorem claim_C4 :
    (∀ (env : ScorePackEnv) (db : Db) (cands : List CheapScoreResult)
      (personaName x m : String) (p : ScorePackRec),
      findDonePack db x m = some p →
      findDonePack (runScorePackLite env db cands personaName false).2 x m =
        some p) ∧
    (∀ (db : Db) (env : ScorePackEnv) (i n : String),
      ((markFailedPack db env i n).score_packs.map fun p =>
        (p.item_id, p.persona_name, p.pack_level)) =
          (db.score_packs.map fun p =>
            (p.item_id, p.persona_name, p.pack_level)) ∨
      ((markFailedPack db env i n).score_packs.map fun p =>
        (p.item_id, p.persona_name, p.pack_level)) =
          (db.score_packs.map fun p =>
            (p.item_id, p.persona_name, p.pack_level)) ++
            [(i, n, Tier.lite)]) ∧
    (∀ (env : ScorePackEnv) (db : Db) (itemId personaName : String)
      (db2 : Db) (x m : String) (p : ScorePackRec),
      (upgradeToFull env db itemId personaName).1 = .ok db2 →
      findPackAny db x m = some p → p.pack_level = Tier.full →
      ∃ q, findPackAny db2 x m = some q ∧ q.pack_level = Tier.full) := by
  refine ⟨?_, ?_, ?_⟩
  · intro env db cands personaName x m p hdone
    unfold runScorePackLite
    exact foldl_liteStep_preserves_done env personaName cands emptyStats db
      x m p hdone
  · intro db env i n
    unfold markFailedPack upsertPacks
    dsimp only
    by_cases hany : db.score_packs.any fun p =>
        p.item_id == i && p.persona_name == n
    · left
      rw [if_pos hany, List.map_map]
      apply List.map_congr_left
      intro p _
      by_cases hk : (p.item_id == i && p.persona_name == n) = true
      · simp only [Function.comp_apply, if_pos hk]
        rfl
      · simp only [Function.comp_apply, if_neg hk]
    · right
      rw [if_neg hany, List.map_append]
      rfl
  · intro env db itemId personaName db2 x m p hok hfind hfull
    unfold upgradeToFull at hok
    rcases hexist : findPackAny db itemId personaName with _ | existing
    · rw [hexist] at hok
      dsimp only at hok
      exact upgradeToFullRun_preserves_full env db itemId personaName db2 x m p hok hfind hfull
    · rw [hexist] at hok
      dsimp only at hok
      by_cases hlvl : (existing.pack_level == Tier.full) = true
      · rw [if_pos hlvl] at hok
        dsimp only at hok
        cases hok
        exact ⟨p, hfind, hfull⟩
      · rw [if_neg hlvl] at hok
        exact upgradeToFullRun_preserves_full env db itemId personaName db2 x m p hok hfind hfull

/-- Counterexample to claim C4 as stated: a force-refresh lite run over an
item whose pack is at tier full and status done succeeds and overwrites the
pack back to tier lite — the tier regresses full to lite. -/
theorem claim_C4_counterexample :
    (findPackAny fixtureDb "i1" "p").map (fun q => q.pack_level) =
      some Tier.full ∧
    (findPackAny
        (runScorePackLite fixtureEnvOk fixtureDb [fixtureCand] "p" true).2
        "i1" "p").map (fun q => q.pack_level) = some Tier.lite := by
  exact ⟨rfl, rfl⟩

/-- Witness for claim C4: under force = false the concrete full done pack
survives the lite batch unchanged. -/
theorem claim_C4_witness :
    findDonePack
        (runScorePackLite fixtureEnvOk fixtureDb [fixtureCand] "p" false).2
        "i1" "p" = some fixtureFullPack :=
  claim_C4.1 fixtureEnvOk fixtureDb [fixtureCand] "p" "i1" "p"
    fixtureFullPack rfl

lemma liteStep_failed_count (env : ScorePackEnv) (personaName : String)
    (force : Bool) (stats : ScorePackStats) (db : Db)
    (c : CheapScoreResult) :
    (liteStep env personaName force (stats, db) c).1.failed =
      stats.failed +
        (if liteFailCond env db personaName force c = true then 1 else 0) := by
  unfold liteStep
  dsimp only
  by_cases hcache :
      (!force && (findDonePack db c.item_id personaName).isSome) = true
  · rw [if_pos hcache]
    have hcond : liteFailCond env db personaName force c = false := by
      unfold liteFailCond
      rcases (Bool.and_eq_true _ _).mp hcache with ⟨hf, hs⟩
      have hforce : force = false := by
        cases force
        · rfl
        · exact absurd hf (by decide)
      rw [hforce, Bool.false_or, hs]
      rfl
    rw [hcond]
    simp
  · rw [if_neg hcache]
    have hmiss :
        (force || !(findDonePack db c.item_id personaName).isSome) = true := by
      cases hforce : force
      · cases hs : (findDonePack db c.item_id personaName).isSome
        · rfl
        · exfalso
          apply hcache
          rw [hforce, hs]
          rfl
      · rfl
    cases hitem : findItem db c.item_id with
    | none =>
      have hcond : liteFailCond env db personaName force c = false := by
        unfold liteFailCond
        rw [hitem]
        simp
      rw [hcond]
      simp
    | some item =>
      dsimp only
      have hb := List.find?_some
        (show db.items.find? (fun i => i.id == c.item_id) = some item from
          hitem)
      have hid : item.id = c.item_id := beq_iff_eq.mp hb
      cases hchat : env.chat (env.liteMessages item.id) with
      | error e =>
        dsimp only
        have hcond : liteFailCond env db personaName force c = true := by
          unfold liteFailCond liteCallFails
          rw [hmiss, hitem, ← hid, hchat]
          rfl
        rw [hcond]
        simp
      | ok resp =>
        dsimp only
        cases hparse :
            (parseWithRetry env.liteSchema resp.content env.chat
              (headContent (env.liteMessages item.id))).1 with
        | ok parsed =>
          dsimp only
          have hcond : liteFailCond env db personaName force c = false := by
            unfold liteFailCond liteCallFails
            rw [hitem, ← hid, hchat]
            dsimp only
            rw [hparse]
            simp
          rw [hcond]
          simp
        | error e =>
          dsimp only
          have hcond : liteFailCond env db personaName force c = true := by
            unfold liteFailCond liteCallFails
            rw [hmiss, hitem, ← hid, hchat]
            dsimp only
            rw [hparse]
            simp
          rw [hcond]
          simp

lemma liteStep_marks_failed (env : ScorePackEnv) (personaName : String)
    (force : Bool) (stats : ScorePackStats) (db : Db) (c : CheapScoreResult)
    (hcond : liteFailCond env db personaName force c = true) :
    ∃ q, findPackAny (liteStep env personaName force (stats, db) c).2
        c.item_id personaName = some q ∧
      q.llm_status = LlmStatus.failed := by
  unfold liteFailCond at hcond
  rcases (Bool.and_eq_true _ _).mp hcond with ⟨hmi, hfails⟩
  rcases (Bool.and_eq_true _ _).mp hmi with ⟨hmiss, hitems⟩
  unfold liteStep
  dsimp only
  rw [if_neg (by
    intro habs
    rcases (Bool.and_eq_true _ _).mp habs with ⟨hf, hs⟩
    have hforce : force = false := by
      cases force
      · rfl
      · exact absurd hf (by decide)
    rw [hforce, Bool.false_or] at hmiss
    rw [hs] at hmiss
    exact absurd hmiss (by decide))]
  cases hitem : findItem db c.item_id with
  | none =>
    rw [hitem] at hitems
    exact absurd hitems (by decide)
  | some item =>
    dsimp only
    have hb := List.find?_some
      (show db.items.find? (fun i => i.id == c.item_id) = some item from hitem)
    have hid : item.id = c.item_id := beq_iff_eq.mp hb
    unfold liteCallFails at hfails
    rw [← hid] at hfails
    cases hchat : env.chat (env.liteMessages item.id) with
    | error e =>
      dsimp only
      rw [show c.item_id = item.id from hid.symm]
      exact markFailedPack_findPackAny_self db env item.id personaName
    | ok resp =>
      dsimp only
      rw [hchat] at hfails
      dsimp only at hfails
      cases hparse :
          (parseWithRetry env.liteSchema resp.content env.chat
            (headContent (env.liteMessages item.id))).1 with
      | ok parsed =>
        rw [hparse] at hfails
        simp at hfails
      | error e =>
        dsimp only
        rw [show c.item_id = item.id from hid.symm]
        exact markFailedPack_findPackAny_self db env item.id personaName

lemma liteFailCond_after_step (env : ScorePackEnv) (personaName : String)
    (force : Bool) (stats : ScorePackStats) (db : Db)
    (c cc : CheapScoreResult) (hne : cc.item_id ≠ c.item_id) :
    liteFailCond env (liteStep env personaName force (stats, db) c).2
        personaName force cc =
      liteFailCond env db personaName force cc := by
  have hf := liteStep_frame env personaName force stats db c cc.item_id
    personaName (fun h => hne h.1)
  unfold liteFailCond
  rw [hf.2.1]
  rw [show findItem (liteStep env personaName force (stats, db) c).2
      cc.item_id = findItem db cc.item_id from by
    unfold findItem
    rw [hf.2.2]]

lemma foldl_liteStep_findPackAny_frame (env : ScorePackEnv)
    (personaName : String) (force : Bool) :
    ∀ (cands : List CheapScoreResult) (stats : ScorePackStats) (db : Db)
      (x m : String),
      (∀ c ∈ cands, x ≠ c.item_id) →
      findPackAny
          (cands.foldl (liteStep env personaName force) (stats, db)).2 x m =
        findPackAny db x m
  | [], _, _, _, _, _ => rfl
  | c :: cs, stats, db, x, m, hnotin => by
    rw [List.foldl_cons]
    rw [show liteStep env personaName force (stats, db) c =
        ((liteStep env personaName force (stats, db) c).1,
          (liteStep env personaName force (stats, db) c).2) from rfl]
    rw [foldl_liteStep_findPackAny_frame env personaName force cs _ _ x m
      (fun c2 hc2 => hnotin c2 (List.mem_cons_of_mem c hc2))]
    exact (liteStep_frame env personaName force stats db c x m
      (fun h => hnotin c (List.mem_cons_self c cs) h.1)).1

lemma foldl_liteStep_spec (env : ScorePackEnv) (personaName : String)
    (force : Bool) :
    ∀ (cands : List CheapScoreResult) (stats : ScorePackStats) (db : Db),
      (cands.map fun c => c.item_id).Nodup →
      ((cands.foldl (liteStep env personaName force) (stats, db)).1.failed =
        stats.failed +
          cands.countP (liteFailCond env db personaName force)) ∧
      (∀ c ∈ cands, liteFailCond env db personaName force c = true →
        ∃ q, findPackAny
            (cands.foldl (liteStep env personaName force) (stats, db)).2
            c.item_id personaName = some q ∧
          q.llm_status = LlmStatus.failed)
  | [], stats, db, _ => ⟨by simp, by simp⟩
  | c :: cs, stats, db, hnd => by
    rw [List.map_cons, List.nodup_cons] at hnd
    have hnotin : ∀ cc ∈ cs, cc.item_id ≠ c.item_id := by
      intro cc hcc habs
      exact hnd.1 (habs ▸ List.mem_map_of_mem (fun r => r.item_id) hcc)
    have ih := foldl_liteStep_spec env personaName force cs
      (liteStep env personaName force (stats, db) c).1
      (liteStep env personaName force (stats, db) c).2 hnd.2
    have hcong : cs.countP (liteFailCond env
        (liteStep env personaName force (stats, db) c).2 personaName force) =
        cs.countP (liteFailCond env db personaName force) := by
      apply List.countP_congr
      intro cc hcc
      rw [liteFailCond_after_step env personaName force stats db c cc
        (hnotin cc hcc)]
    constructor
    · rw [List.foldl_cons]
      rw [show liteStep env personaName force (stats, db) c =
          ((liteStep env personaName force (stats, db) c).1,
            (liteStep env personaName force (stats, db) c).2) from rfl]
      rw [ih.1, hcong, liteStep_failed_count, List.countP_cons]
      omega
    · intro cc hcc hcond
      rcases List.mem_cons.mp hcc with rfl | hmem
      · obtain ⟨q, hq, hqs⟩ :=
          liteStep_marks_failed env personaName force stats db cc hcond
        refine ⟨q, ?_, hqs⟩
        rw [List.foldl_cons]
        rw [show liteStep env personaName force (stats, db) cc =
            ((liteStep env personaName force (stats, db) cc).1,
              (liteStep env personaName force (stats, db) cc).2) from rfl]
        rw [foldl_liteStep_findPackAny_frame env personaName force cs _ _
          cc.item_id personaName (fun c2 hc2 => (hnotin c2 hc2).symm)]
        exact hq
      · have hcond2 : liteFailCond env
            (liteStep env personaName force (stats, db) c).2 personaName force
            cc = true := by
          rw [liteFailCond_after_step env personaName force stats db c cc
            (hnotin cc hmem)]
          exact hcond
        rw [List.foldl_cons]
        rw [show liteStep env personaName force (stats, db) c =
            ((liteStep env personaName force (stats, db) c).1,
              (liteStep env personaName force (stats, db) c).2) from rfl]
        exact ih.2 cc hmem hcond2

/-- Claim C8. In a lite batch (with pairwise distinct candidate item ids),
the failure counter counts exactly the candidates whose chat or validation
phase fails (after the cache and item-row checks), and every such candidate
ends with an upserted pack whose llm_status is failed for its (item,
persona) pair — the fold always completes over the whole batch and returns
its statistics normally. -/
theorem claim_C8 (env : ScorePackEnv) (db : Db)
    (candidates : List CheapScoreResult) (personaName : String)
    (force : Bool) (hnd : (candidates.map fun c => c.item_id).Nodup) :
    ((runScorePackLite env db candidates personaName force).1.failed =
      candidates.countP (liteFailCond env db personaName force)) ∧
    (∀ c ∈ candidates, liteFailCond env db personaName force c = true →
      ∃ q, findPackAny
          (runScorePackLite env db candidates personaName force).2
          c.item_id personaName = some q ∧
        q.llm_status = LlmStatus.failed) := by
  have h := foldl_liteStep_spec env personaName force candidates emptyStats db
    hnd
  unfold runScorePackLite
  constructor
  · rw [h.1]
    simp [emptyStats]
  · exact h.2

/-- Witness for claim C8: a one-candidate batch whose chat call times out
reports one failure and leaves a failed pack for that (item, persona)
pair. -/
theorem claim_C8_witness :
    (runScorePackLite fixtureEnvFail fixtureDbTwo [fixtureCandTwo] "p"
      false).1.failed = 1 ∧
    ((findPackAny
        (runScorePackLite fixtureEnvFail fixtureDbTwo [fixtureCandTwo] "p"
          false).2 "i2" "p").map fun q => q.llm_status) =
      some LlmStatus.failed := by
  have h := claim_C8 fixtureEnvFail fixtureDbTwo [fixtureCandTwo] "p" false
    (by simp)
  constructor
  · rw [h.1]
    rfl
  · obtain ⟨q, hq, hqs⟩ := h.2 fixtureCandTwo (List.mem_singleton_self _) rfl
    have hq2 : findPackAny
        (runScorePackLite fixtureEnvFail fixtureDbTwo [fixtureCandTwo] "p"
          false).2 "i2" "p" = some q := hq
    rw [hq2]
    dsimp only [Option.map]
    rw [hqs]
